import Mathlib

/-!
Verification of the pgsac extraction-and-export pipeline.

This file gives a shallow embedding of the two components of the repository:

* the schema extractor (`pkg/schema/extractor.go`, pipe-separated `psql`
  backend, and the earlier direct-query backend), and
* the exporter (`pkg/exporter/exporter.go`),

together with the data model (`ObjectType`, `Object`, `Schema` from the
`pkg/schema` types file), and proves or refutes the specification claims
about them.

Modelling conventions:

* The external `psql` invocation (`execPsql`) is an oracle
  `String → Except String String` mapping the command text to either the
  textual output or an error message.  The direct-query backend uses an
  oracle `String → String → Except String (List (String × String))`
  mapping (query text, schema parameter) to the row set (each row is the
  pair of columns the Go code scans); `rows.Scan`/`rows.Err` failures are
  folded into the oracle error.
* Go string library functions used by the source (`strings.Split` with a
  one-character separator, `strings.TrimSpace`, `strings.Join`) are
  re-implemented structurally over `String.data` so that every definition
  evaluates by kernel reduction.  `goIsSpace` covers the ASCII whitespace
  characters of Go `unicode.IsSpace`.
* The filesystem seen by the exporter is a map `String → Option String`
  from paths to file contents; `filepath.Join` is modelled as
  concatenation with a `"/"` separator (the path-cleaning step of
  `filepath.Join` is the identity on the names appearing here), and
  `os.MkdirAll` / `os.Create` / `WriteString` failures are an oracle
  giving, per path, either success or an error text.
* Go returns pairs `(value, error)`; functions whose every `return`
  statement yields exactly one of `nil, err` or `value, nil` are embedded
  as `Except`.  `ExtractSchemas` is embedded as an explicit pair
  `List Schema × Option String` (a `nil` Go slice is the empty list), so
  that "no partial result next to an error" remains a provable statement
  rather than a typing artifact.
-/

/-- ASCII whitespace, as trimmed by Go `strings.TrimSpace` for ASCII input. -/
def goIsSpace (c : Char) : Bool :=
  c = ' ' || c = '\t' || c = '\n' || c = '\x0b' || c = '\x0c' || c = '\r'

/-- Drop leading and trailing whitespace from a character list. -/
def trimData (l : List Char) : List Char :=
  ((l.dropWhile goIsSpace).reverse.dropWhile goIsSpace).reverse

/-- Go `strings.TrimSpace`. -/
def goTrim (s : String) : String := ⟨trimData s.data⟩

/-- Split a character list at every occurrence of `c` (Go `strings.Split`
with a one-character separator); the empty list yields one empty field. -/
def splitCharList (c : Char) : List Char → List (List Char)
  | [] => [[]]
  | x :: xs =>
    if x = c then [] :: splitCharList c xs
    else
      match splitCharList c xs with
      | g :: gs => (x :: g) :: gs
      | [] => [[x]]

/-- Go `strings.Split s (String.singleton c)`. -/
def goSplit (s : String) (c : Char) : List String :=
  (splitCharList c s.data).map String.mk

/-- Go `strings.Join` with separator `","`. -/
def joinComma : List String → String
  | [] => ""
  | [x] => x
  | x :: y :: xs => x ++ "," ++ joinComma (y :: xs)

/-- Lexicographic (byte-wise) order on character lists; the executable
meaning of "alphabetically ordered by name". -/
def charListLe : List Char → List Char → Bool
  | [], _ => true
  | _ :: _, [] => false
  | a :: as, b :: bs => if a = b then charListLe as bs else decide (a < b)

/-- Lexicographic order on strings. -/
def strLe (s t : String) : Bool := charListLe s.data t.data

/-- A single-quote character, used when assembling SQL text. -/
def quoteStr : String := "\x27"

/-- A list of names in alphabetical order. -/
def sortedNames (l : List String) : Prop :=
  List.Pairwise (fun a b => strLe a b = true) l

instance sortedNamesDecidable (l : List String) : Decidable (sortedNames l) :=
  List.instDecidablePairwise l

/-- The closed enumeration of object types (`pkg/schema` types file; the Go
`ObjectType` is a string type whose only values are the four constants). -/
inductive ObjectType where
  | table
  | view
  | materialized_view
  | function
deriving DecidableEq

/-- The string value of each `ObjectType` constant. -/
def ObjectType.str : ObjectType → String
  | .table => "table"
  | .view => "view"
  | .materialized_view => "materialized_view"
  | .function => "function"

/-- A database object (`pkg/schema` types file).  `depends` is reserved and
never populated. -/
structure Object where
  schema : String
  name : String
  type : ObjectType
  definition : String
  depends : List String := []
deriving DecidableEq

/-- A schema and its ordered objects (`pkg/schema` types file). -/
structure Schema where
  name : String
  objects : List Object
deriving DecidableEq

namespace Psql

/-- The `execPsql` boundary: command text to output or error. -/
def Run := String → Except String String

/-- `\dt+ <schema>.*` (listing command of `extractTables`). -/
def tablesListCmd (schemaName : String) : String := "\\dt+ " ++ schemaName ++ ".*"

/-- `\dv+ <schema>.*` (listing command of `extractViews`). -/
def viewsListCmd (schemaName : String) : String := "\\dv+ " ++ schemaName ++ ".*"

/-- `\dm+ <schema>.*` (listing command of `extractMaterializedViews`). -/
def matViewsListCmd (schemaName : String) : String := "\\dm+ " ++ schemaName ++ ".*"

/-- `\df+ <schema>.*` (listing command of `extractRegularFunctions`). -/
def functionsListCmd (schemaName : String) : String := "\\df+ " ++ schemaName ++ ".*"

/-- `\da+ <schema>.*` (listing command of `extractAggregateFunctions`). -/
def aggListCmd (schemaName : String) : String := "\\da+ " ++ schemaName ++ ".*"

/-- `\d+ <schema>.<name>` (definition command for tables, views and
materialized views). -/
def describeCmd (schemaName objName : String) : String :=
  "\\d+ " ++ schemaName ++ "." ++ objName

/-- `\sf <schema>.<name>(<argTypes>)` (definition command of
`extractRegularFunctions`, threading the signature). -/
def sfCmd (schemaName funcName argTypes : String) : String :=
  "\\sf " ++ schemaName ++ "." ++ funcName ++ "(" ++ argTypes ++ ")"

/-- `formatArgTypesForSQL`: `"text, integer"` becomes `"'text','integer'"`. -/
def formatArgTypesForSQL (argTypes : String) : String :=
  if argTypes = "" then ""
  else joinComma ((goSplit argTypes ',').map (fun t => quoteStr ++ goTrim t ++ quoteStr))

/-- The catalog-introspection query of `extractAggregateFunctions`
(whitespace reproduced from the Go raw string literal). -/
def aggDefCmd (schemaName funcName argTypes : String) : String :=
  "SELECT pg_get_functiondef(p.oid)\n\t\t\tFROM pg_proc p\n\t\t\tJOIN pg_namespace n ON p.pronamespace = n.oid\n\t\t\tWHERE n.nspname = "
    ++ quoteStr ++ schemaName ++ quoteStr
    ++ "\n\t\t\tAND p.proname = " ++ quoteStr ++ funcName ++ quoteStr
    ++ "\n\t\t\tAND p.proargtypes::regtype[] = ARRAY["
    ++ formatArgTypesForSQL argTypes ++ "]::regtype[]"

/-- The line loop of `extractTables` over the split listing output. -/
def extractTablesLoop (psql : Run) (schemaName : String) :
    List String → Except String (List Object)
  | [] => .ok []
  | line :: rest =>
    if line = "" then extractTablesLoop psql schemaName rest
    else
      let fields := goSplit line '|'
      if fields.length < 6 then extractTablesLoop psql schemaName rest
      else
        let schema := goTrim (fields.getD 0 "")
        let tableName := goTrim (fields.getD 1 "")
        if schema = "pg_catalog" ∨ schema = "information_schema" then
          extractTablesLoop psql schemaName rest
        else
          match psql (describeCmd schemaName tableName) with
          | .error e =>
            .error ("error getting table definition for " ++ tableName ++ ": " ++ e)
          | .ok definition =>
            (extractTablesLoop psql schemaName rest).map
              (fun objs =>
                { schema := schemaName, name := tableName, type := .table
                  definition := definition, depends := [] } :: objs)

/-- `extractTables` of the psql backend. -/
def extractTables (psql : Run) (schemaName : String) : Except String (List Object) :=
  match psql (tablesListCmd schemaName) with
  | .error e => .error ("error listing tables: " ++ e)
  | .ok tableList => extractTablesLoop psql schemaName (goSplit (goTrim tableList) '\n')

/-- The line loop of `extractViews`. -/
def extractViewsLoop (psql : Run) (schemaName : String) :
    List String → Except String (List Object)
  | [] => .ok []
  | line :: rest =>
    if line = "" then extractViewsLoop psql schemaName rest
    else
      let fields := goSplit line '|'
      if fields.length < 6 then extractViewsLoop psql schemaName rest
      else
        let schema := goTrim (fields.getD 0 "")
        let viewName := goTrim (fields.getD 1 "")
        if schema = "pg_catalog" ∨ schema = "information_schema" then
          extractViewsLoop psql schemaName rest
        else
          match psql (describeCmd schemaName viewName) with
          | .error e =>
            .error ("error getting view definition for " ++ viewName ++ ": " ++ e)
          | .ok definition =>
            (extractViewsLoop psql schemaName rest).map
              (fun objs =>
                { schema := schemaName, name := viewName, type := .view
                  definition := definition, depends := [] } :: objs)

/-- `extractViews` of the psql backend. -/
def extractViews (psql : Run) (schemaName : String) : Except String (List Object) :=
  match psql (viewsListCmd schemaName) with
  | .error e => .error ("error listing views: " ++ e)
  | .ok viewList => extractViewsLoop psql schemaName (goSplit (goTrim viewList) '\n')

/-- The line loop of `extractMaterializedViews`. -/
def extractMatViewsLoop (psql : Run) (schemaName : String) :
    List String → Except String (List Object)
  | [] => .ok []
  | line :: rest =>
    if line = "" then extractMatViewsLoop psql schemaName rest
    else
      let fields := goSplit line '|'
      if fields.length < 6 then extractMatViewsLoop psql schemaName rest
      else
        let schema := goTrim (fields.getD 0 "")
        let matViewName := goTrim (fields.getD 1 "")
        if schema = "pg_catalog" ∨ schema = "information_schema" then
          extractMatViewsLoop psql schemaName rest
        else
          match psql (describeCmd schemaName matViewName) with
          | .error e =>
            .error ("error getting materialized view definition for "
              ++ matViewName ++ ": " ++ e)
          | .ok definition =>
            (extractMatViewsLoop psql schemaName rest).map
              (fun objs =>
                { schema := schemaName, name := matViewName, type := .materialized_view
                  definition := definition, depends := [] } :: objs)

/-- `extractMaterializedViews` of the psql backend. -/
def extractMaterializedViews (psql : Run) (schemaName : String) :
    Except String (List Object) :=
  match psql (matViewsListCmd schemaName) with
  | .error e => .error ("error listing materialized views: " ++ e)
  | .ok matViewList =>
    extractMatViewsLoop psql schemaName (goSplit (goTrim matViewList) '\n')

/-- The line loop of `extractRegularFunctions` (12-field `\df+` rows; the
argument-type column is field 3 and the kind column field 4). -/
def extractRegularFunctionsLoop (psql : Run) (schemaName : String) :
    List String → Except String (List Object)
  | [] => .ok []
  | line :: rest =>
    if line = "" then extractRegularFunctionsLoop psql schemaName rest
    else
      let fields := goSplit line '|'
      if fields.length < 12 then extractRegularFunctionsLoop psql schemaName rest
      else
        let schema := goTrim (fields.getD 0 "")
        let funcName := goTrim (fields.getD 1 "")
        let argTypes := goTrim (fields.getD 3 "")
        let kind := goTrim (fields.getD 4 "")
        if schema = "pg_catalog" ∨ schema = "information_schema" ∨ kind ≠ "func" then
          extractRegularFunctionsLoop psql schemaName rest
        else
          match psql (sfCmd schemaName funcName argTypes) with
          | .error e =>
            .error ("error getting function definition for " ++ funcName
              ++ "(" ++ argTypes ++ "): " ++ e)
          | .ok definition =>
            (extractRegularFunctionsLoop psql schemaName rest).map
              (fun objs =>
                { schema := schemaName, name := funcName, type := .function
                  definition := definition, depends := [] } :: objs)

/-- `extractRegularFunctions` of the psql backend. -/
def extractRegularFunctions (psql : Run) (schemaName : String) :
    Except String (List Object) :=
  match psql (functionsListCmd schemaName) with
  | .error e => .error ("error listing functions: " ++ e)
  | .ok funcList =>
    extractRegularFunctionsLoop psql schemaName (goSplit (goTrim funcList) '\n')

/-- The line loop of `extractAggregateFunctions` (4-field `\da+` rows; the
argument-type column is field 2). -/
def extractAggregateFunctionsLoop (psql : Run) (schemaName : String) :
    List String → Except String (List Object)
  | [] => .ok []
  | line :: rest =>
    if line = "" then extractAggregateFunctionsLoop psql schemaName rest
    else
      let fields := goSplit line '|'
      if fields.length < 4 then extractAggregateFunctionsLoop psql schemaName rest
      else
        let schema := goTrim (fields.getD 0 "")
        let funcName := goTrim (fields.getD 1 "")
        let argTypes := goTrim (fields.getD 2 "")
        if schema = "pg_catalog" ∨ schema = "information_schema" then
          extractAggregateFunctionsLoop psql schemaName rest
        else
          match psql (aggDefCmd schemaName funcName argTypes) with
          | .error e =>
            .error ("error getting aggregate function definition for " ++ funcName
              ++ "(" ++ argTypes ++ "): " ++ e)
          | .ok definition =>
            (extractAggregateFunctionsLoop psql schemaName rest).map
              (fun objs =>
                { schema := schemaName, name := funcName, type := .function
                  definition := definition, depends := [] } :: objs)

/-- `extractAggregateFunctions` of the psql backend. -/
def extractAggregateFunctions (psql : Run) (schemaName : String) :
    Except String (List Object) :=
  match psql (aggListCmd schemaName) with
  | .error e => .error ("error listing aggregate functions: " ++ e)
  | .ok funcList =>
    extractAggregateFunctionsLoop psql schemaName (goSplit (goTrim funcList) '\n')

/-- `extractFunctions`: regular functions followed by aggregates. -/
def extractFunctions (psql : Run) (schemaName : String) : Except String (List Object) :=
  match extractRegularFunctions psql schemaName with
  | .error e => .error e
  | .ok functions =>
    match extractAggregateFunctions psql schemaName with
    | .error e => .error e
    | .ok aggregates => .ok (functions ++ aggregates)

/-- The schema loop of `ExtractSchemas`; every error `return` in the Go
source yields the pair `(nil, err)`, embedded as `([], some err)`. -/
def ExtractSchemasLoop (psql : Run) :
    List String → List Schema → List Schema × Option String
  | [], acc => (acc, none)
  | schemaName :: rest, acc =>
    match extractTables psql schemaName with
    | .error e =>
      ([], some ("error extracting tables from schema " ++ schemaName ++ ": " ++ e))
    | .ok tables =>
      match extractViews psql schemaName with
      | .error e =>
        ([], some ("error extracting views from schema " ++ schemaName ++ ": " ++ e))
      | .ok views =>
        match extractMaterializedViews psql schemaName with
        | .error e =>
          ([], some ("error extracting materialized views from schema "
            ++ schemaName ++ ": " ++ e))
        | .ok matViews =>
          match extractFunctions psql schemaName with
          | .error e =>
            ([], some ("error extracting functions from schema "
              ++ schemaName ++ ": " ++ e))
          | .ok functions =>
            ExtractSchemasLoop psql rest
              (acc ++ [{ name := schemaName
                         objects := tables ++ views ++ matViews ++ functions }])

/-- `ExtractSchemas` of the psql backend. -/
def ExtractSchemas (psql : Run) (schemaNames : List String) :
    List Schema × Option String :=
  ExtractSchemasLoop psql schemaNames []

end Psql

/-- A retained row of a 6-field listing (`\dt+`, `\dv+`, `\dm+`): the
namespace column, then the name column; blank, under-width and
system-namespace rows yield `none`. -/
def parseSimpleRow (line : String) : Option (String × String) :=
  if line = "" then none
  else
    let fields := goSplit line '|'
    if fields.length < 6 then none
    else
      let schema := goTrim (fields.getD 0 "")
      let name := goTrim (fields.getD 1 "")
      if schema = "pg_catalog" ∨ schema = "information_schema" then none
      else some (schema, name)

/-- A retained row of the 12-field `\df+` listing: namespace, name and
argument types; rows whose kind column is not `func` are dropped. -/
def parseFnRow (line : String) : Option (String × String × String) :=
  if line = "" then none
  else
    let fields := goSplit line '|'
    if fields.length < 12 then none
    else
      let schema := goTrim (fields.getD 0 "")
      let name := goTrim (fields.getD 1 "")
      let argTypes := goTrim (fields.getD 3 "")
      let kind := goTrim (fields.getD 4 "")
      if schema = "pg_catalog" ∨ schema = "information_schema" ∨ kind ≠ "func" then none
      else some (schema, name, argTypes)

/-- A retained row of the 4-field `\da+` listing: namespace, name and
argument types. -/
def parseAggRow (line : String) : Option (String × String × String) :=
  if line = "" then none
  else
    let fields := goSplit line '|'
    if fields.length < 4 then none
    else
      let schema := goTrim (fields.getD 0 "")
      let name := goTrim (fields.getD 1 "")
      let argTypes := goTrim (fields.getD 2 "")
      if schema = "pg_catalog" ∨ schema = "information_schema" then none
      else some (schema, name, argTypes)

/-- The lines a listing output is split into. -/
def linesOf (out : String) : List String := goSplit (goTrim out) '\n'

/-- All retained rows of a 6-field listing output. -/
def parsedSimpleRows (out : String) : List (String × String) :=
  (linesOf out).filterMap parseSimpleRow

/-- All retained rows of a `\df+` listing output. -/
def parsedFnRows (out : String) : List (String × String × String) :=
  (linesOf out).filterMap parseFnRow

/-- All retained rows of a `\da+` listing output. -/
def parsedAggRows (out : String) : List (String × String × String) :=
  (linesOf out).filterMap parseAggRow

namespace Direct

/-- The `database/sql` boundary of the direct-query backend: a query text and
its one parameter yield the scanned rows (name, definition) or an error. -/
def Run := String → String → Except String (List (String × String))

/-- The table query of the direct-query backend (`pg_get_tabledef` per row;
whitespace reproduced from the Go raw string literal). -/
def tablesQuery : String :=
  "\n\t\tSELECT table_name,\n\t\t\t   pg_get_tabledef(format(" ++ quoteStr
    ++ "%I.%I" ++ quoteStr
    ++ ", schemaname, tablename)) as definition\n\t\tFROM pg_tables\n\t\tWHERE schemaname = $1\n\t\tORDER BY table_name;\n\t"

/-- The view query of the direct-query backend. -/
def viewsQuery : String :=
  "\n\t\tSELECT viewname,\n\t\t\t   pg_get_viewdef(format(" ++ quoteStr
    ++ "%I.%I" ++ quoteStr
    ++ ", schemaname, viewname), true) as definition\n\t\tFROM pg_views\n\t\tWHERE schemaname = $1\n\t\tORDER BY viewname;\n\t"

/-- The materialized-view query of the direct-query backend. -/
def matViewsQuery : String :=
  "\n\t\tSELECT matviewname,\n\t\t\t   pg_get_viewdef(format(" ++ quoteStr
    ++ "%I.%I" ++ quoteStr
    ++ ", schemaname, matviewname), true) as definition\n\t\tFROM pg_matviews\n\t\tWHERE schemaname = $1\n\t\tORDER BY matviewname;\n\t"

/-- The function query of the direct-query backend. -/
def functionsQuery : String :=
  "\n\t\tSELECT p.proname,\n\t\t\t   pg_get_functiondef(p.oid) as definition\n\t\tFROM pg_proc p\n\t\tJOIN pg_namespace n ON p.pronamespace = n.oid\n\t\tWHERE n.nspname = $1\n\t\tORDER BY p.proname;\n\t"

/-- `extractTables` of the direct-query backend: one row per object, no
namespace filter of any kind. -/
def extractTables (q : Run) (schemaName : String) : Except String (List Object) :=
  (q tablesQuery schemaName).map
    (List.map (fun r =>
      { schema := schemaName, name := r.1, type := .table
        definition := r.2, depends := [] }))

/-- `extractViews` of the direct-query backend. -/
def extractViews (q : Run) (schemaName : String) : Except String (List Object) :=
  (q viewsQuery schemaName).map
    (List.map (fun r =>
      { schema := schemaName, name := r.1, type := .view
        definition := r.2, depends := [] }))

/-- `extractMaterializedViews` of the direct-query backend. -/
def extractMaterializedViews (q : Run) (schemaName : String) :
    Except String (List Object) :=
  (q matViewsQuery schemaName).map
    (List.map (fun r =>
      { schema := schemaName, name := r.1, type := .materialized_view
        definition := r.2, depends := [] }))

/-- `extractFunctions` of the direct-query backend (a single query covering
all function kinds). -/
def extractFunctions (q : Run) (schemaName : String) : Except String (List Object) :=
  (q functionsQuery schemaName).map
    (List.map (fun r =>
      { schema := schemaName, name := r.1, type := .function
        definition := r.2, depends := [] }))

/-- The schema loop of `ExtractSchemas` of the direct-query backend (the
wrapping text is identical to the psql backend). -/
def ExtractSchemasLoop (q : Run) :
    List String → List Schema → List Schema × Option String
  | [], acc => (acc, none)
  | schemaName :: rest, acc =>
    match extractTables q schemaName with
    | .error e =>
      ([], some ("error extracting tables from schema " ++ schemaName ++ ": " ++ e))
    | .ok tables =>
      match extractViews q schemaName with
      | .error e =>
        ([], some ("error extracting views from schema " ++ schemaName ++ ": " ++ e))
      | .ok views =>
        match extractMaterializedViews q schemaName with
        | .error e =>
          ([], some ("error extracting materialized views from schema "
            ++ schemaName ++ ": " ++ e))
        | .ok matViews =>
          match extractFunctions q schemaName with
          | .error e =>
            ([], some ("error extracting functions from schema "
              ++ schemaName ++ ": " ++ e))
          | .ok functions =>
            ExtractSchemasLoop q rest
              (acc ++ [{ name := schemaName
                         objects := tables ++ views ++ matViews ++ functions }])

/-- `ExtractSchemas` of the direct-query backend. -/
def ExtractSchemas (q : Run) (schemaNames : List String) :
    List Schema × Option String :=
  ExtractSchemasLoop q schemaNames []

end Direct

/-- The filesystem as seen by the exporter: paths to file contents. -/
def FS := String → Option String

/-- Writing a file (creation or truncation included). -/
def FS.set (fs : FS) (p : String) (v : String) : FS :=
  fun q => if q = p then some v else fs q

/-- Failure behavior of the filesystem operations used by the exporter:
for each path, `none` means the operation succeeds and `some e` that it
fails with error text `e`. -/
structure FsOracle where
  mkdirRes : String → Option String
  createRes : String → Option String
  writeHeaderRes : String → Option String
  writeDefRes : String → Option String

/-- The oracle on which every filesystem operation succeeds. -/
def allOk : FsOracle :=
  { mkdirRes := fun _ => none, createRes := fun _ => none
    writeHeaderRes := fun _ => none, writeDefRes := fun _ => none }

/-- The two-line header plus blank line written by `exportObject`. -/
def headerOf (o : Object) : String :=
  "-- Object: " ++ o.schema ++ "." ++ o.name ++ "\n-- Type: " ++ o.type.str ++ "\n\n"

/-- The complete content of a successfully exported file. -/
def renderOf (o : Object) : String :=
  headerOf o ++ (goTrim o.definition ++ ";\n")

/-- `exportObject`: create (truncate) the file, write the header, then the
trimmed definition with a terminator appended. -/
def exportObject (env : FsOracle) (fs : FS) (typeDir : String) (o : Object) :
    FS × Option String :=
  let filePath := typeDir ++ "/" ++ o.name ++ ".sql"
  match env.createRes filePath with
  | some e => (fs, some ("error creating file: " ++ e))
  | none =>
    let fs1 := fs.set filePath ""
    match env.writeHeaderRes filePath with
    | some e => (fs1, some ("error writing header: " ++ e))
    | none =>
      let fs2 := fs1.set filePath (headerOf o)
      match env.writeDefRes filePath with
      | some e => (fs2, some ("error writing definition: " ++ e))
      | none =>
        (fs2.set filePath (headerOf o ++ (goTrim o.definition ++ ";\n")), none)

/-- The object loop inside `exportSchema`, over one per-type bucket. -/
def exportObjects (env : FsOracle) (fs : FS) (typeDir : String) :
    List Object → FS × Option String
  | [] => (fs, none)
  | o :: rest =>
    match exportObject env fs typeDir o with
    | (fs1, some e) => (fs1, some ("error exporting object " ++ o.name ++ ": " ++ e))
    | (fs1, none) => exportObjects env fs1 typeDir rest

/-- The per-type loop of `exportSchema`.  The Go source iterates a map from
type to bucket in unspecified order; `order` is the sequence of type keys
that iteration takes, and the bucket of `t` is the subsequence of objects
with type `t`, as built by the grouping loop. -/
def exportTypes (env : FsOracle) (fs : FS) (schemaDir : String)
    (objs : List Object) : List ObjectType → FS × Option String
  | [] => (fs, none)
  | t :: rest =>
    let typeDir := schemaDir ++ "/" ++ t.str
    match env.mkdirRes typeDir with
    | some e => (fs, some ("error creating type directory: " ++ e))
    | none =>
      match exportObjects env fs typeDir (objs.filter (fun o => decide (o.type = t))) with
      | (fs1, some e) => (fs1, some e)
      | (fs1, none) => exportTypes env fs1 schemaDir objs rest

/-- `exportSchema`: create the schema directory, then export each per-type
bucket. -/
def exportSchema (env : FsOracle) (order : List ObjectType) (fs : FS)
    (baseDir : String) (s : Schema) : FS × Option String :=
  let schemaDir := baseDir ++ "/" ++ s.name
  match env.mkdirRes schemaDir with
  | some e => (fs, some ("error creating schema directory: " ++ e))
  | none => exportTypes env fs schemaDir s.objects order

/-- `Export`: export every schema in sequence, wrapping any error with the
schema name; `ord` chooses the map-iteration order used for each schema. -/
def Export (env : FsOracle) (ord : Schema → List ObjectType) (baseDir : String)
    (fs : FS) : List Schema → FS × Option String
  | [] => (fs, none)
  | s :: rest =>
    match exportSchema env (ord s) fs baseDir s with
    | (fs1, some e) => (fs1, some ("error exporting schema " ++ s.name ++ ": " ++ e))
    | (fs1, none) => Export env ord baseDir fs1 rest

/-- The path `exportObject` writes an object of schema directory `d` to. -/
def pathOf (schemaDir : String) (o : Object) : String :=
  schemaDir ++ "/" ++ o.type.str ++ "/" ++ o.name ++ ".sql"

/-- Every (path, content) pair a model gives rise to, in write order. -/
def exportPairs (baseDir : String) (schemas : List Schema) : List (String × String) :=
  schemas.flatMap (fun s =>
    s.objects.map (fun o => (pathOf (baseDir ++ "/" ++ s.name) o, renderOf o)))

/-- The set (as a list) of paths `Export` may write. -/
def derivedPaths (baseDir : String) (schemas : List Schema) : List String :=
  (exportPairs baseDir schemas).map (fun pr => pr.1)

/-- The first character of each object-type string, used to separate the
per-type directories. -/
def ObjectType.code : ObjectType → Char
  | .table => 't'
  | .view => 'v'
  | .materialized_view => 'm'
  | .function => 'f'

/-- The ordering property claimed by the specification: the object
sequence is partitioned by type in the fixed order table, view,
materialized view, function, and each partition is alphabetical by name. -/
def orderedPerSpec (objs : List Object) : Prop :=
  ∃ l1 l2 l3 l4, objs = l1 ++ l2 ++ l3 ++ l4
    ∧ (∀ o ∈ l1, o.type = ObjectType.table)
    ∧ (∀ o ∈ l2, o.type = ObjectType.view)
    ∧ (∀ o ∈ l3, o.type = ObjectType.materialized_view)
    ∧ (∀ o ∈ l4, o.type = ObjectType.function)
    ∧ sortedNames (l1.map (fun o => o.name))
    ∧ sortedNames (l2.map (fun o => o.name))
    ∧ sortedNames (l3.map (fun o => o.name))
    ∧ sortedNames (l4.map (fun o => o.name))

/-- The ordering property the code actually guarantees: as claimed, except
that the function partition is two alphabetical runs, the regular
functions followed by the aggregate functions. -/
def orderedAmended (objs : List Object) : Prop :=
  ∃ l1 l2 l3 l4 l5, objs = l1 ++ l2 ++ l3 ++ (l4 ++ l5)
    ∧ (∀ o ∈ l1, o.type = ObjectType.table)
    ∧ (∀ o ∈ l2, o.type = ObjectType.view)
    ∧ (∀ o ∈ l3, o.type = ObjectType.materialized_view)
    ∧ (∀ o ∈ l4, o.type = ObjectType.function)
    ∧ (∀ o ∈ l5, o.type = ObjectType.function)
    ∧ sortedNames (l1.map (fun o => o.name))
    ∧ sortedNames (l2.map (fun o => o.name))
    ∧ sortedNames (l3.map (fun o => o.name))
    ∧ sortedNames (l4.map (fun o => o.name))
    ∧ sortedNames (l5.map (fun o => o.name))

/-- A database state for the ordering counterexample: schema `app` holds a
regular function `zfunc(integer)` and an aggregate `aagg(numeric)`; every
listing is alphabetically sorted. -/
def psqlC1 : Psql.Run := fun cmd =>
  if cmd = Psql.tablesListCmd "app" then .ok ""
  else if cmd = Psql.viewsListCmd "app" then .ok ""
  else if cmd = Psql.matViewsListCmd "app" then .ok ""
  else if cmd = Psql.functionsListCmd "app" then
    .ok "app|zfunc|integer|integer|func|v|s|u|o|l|x|y"
  else if cmd = Psql.sfCmd "app" "zfunc" "integer" then .ok "ZDEF"
  else if cmd = Psql.aggListCmd "app" then .ok "app|aagg|numeric|desc"
  else if cmd = Psql.aggDefCmd "app" "aagg" "numeric" then .ok "ADEF"
  else .error "unexpected command"

/-- The regular function extracted in the ordering counterexample. -/
def objZfunc : Object :=
  { schema := "app", name := "zfunc", type := ObjectType.function
    definition := "ZDEF", depends := [] }

/-- The aggregate function extracted in the ordering counterexample. -/
def objAagg : Object :=
  { schema := "app", name := "aagg", type := ObjectType.function
    definition := "ADEF", depends := [] }

/-- A database state for the system-namespace counterexample on the
direct-query backend: `pg_catalog` owns one table. -/
def directC2 : Direct.Run := fun query param =>
  if query = Direct.tablesQuery ∧ param = "pg_catalog" then
    .ok [("pg_class", "TABLEDEF")]
  else .ok []

/-- A database state in which the table `app.users` is listed but its
definition command fails. -/
def psqlC4 : Psql.Run := fun cmd =>
  if cmd = Psql.tablesListCmd "app" then .ok "app|users|owner|x|y|z"
  else if cmd = Psql.describeCmd "app" "users" then .error "permission denied"
  else .error "unexpected command"

/-- A database state in which the listings of tables, views and
materialized views are empty and `app.f(integer)` has a failing `\sf`. -/
def psqlC4f : Psql.Run := fun cmd =>
  if cmd = Psql.tablesListCmd "app" then .ok ""
  else if cmd = Psql.viewsListCmd "app" then .ok ""
  else if cmd = Psql.matViewsListCmd "app" then .ok ""
  else if cmd = Psql.functionsListCmd "app" then
    .ok "app|f|integer|integer|func|v|s|u|o|l|x|y"
  else .error "no such function"

/-- A database state with two overloads of `app.f`. -/
def psqlC7 : Psql.Run := fun cmd =>
  if cmd = Psql.functionsListCmd "app" then
    .ok "app|f|integer|integer|func|v|s|u|o|l|x|y
app|f|text|text|func|v|s|u|o|l|x|y"
  else if cmd = Psql.sfCmd "app" "f" "integer" then .ok "DEF_INT"
  else if cmd = Psql.sfCmd "app" "f" "text" then .ok "DEF_TEXT"
  else .error "unexpected command"

/-- A database state with a single aggregate `app.my_agg(numeric)`; the
`\df+` listing shows it with kind `agg`, the `\da+` listing shows it as
an aggregate. -/
def psqlC9 : Psql.Run := fun cmd =>
  if cmd = Psql.tablesListCmd "app" then .ok ""
  else if cmd = Psql.viewsListCmd "app" then .ok ""
  else if cmd = Psql.matViewsListCmd "app" then .ok ""
  else if cmd = Psql.functionsListCmd "app" then
    .ok "app|my_agg|numeric|numeric|agg|v|s|u|o|l|x|y"
  else if cmd = Psql.aggListCmd "app" then .ok "app|my_agg|numeric|average"
  else if cmd = Psql.aggDefCmd "app" "my_agg" "numeric" then .ok "AGGDEF"
  else .error "unexpected command"

/-- The model object `app.a` used in the exporter scenarios. -/
def objA : Object :=
  { schema := "app", name := "a", type := ObjectType.table
    definition := "A", depends := [] }

/-- The model object `app.b` used in the exporter scenarios. -/
def objB : Object :=
  { schema := "app", name := "b", type := ObjectType.table
    definition := "B", depends := [] }

/-- The two-object schema of the partial-failure scenario. -/
def schemaC6 : Schema := { name := "app", objects := [objA, objB] }

/-- The oracle of the partial-failure scenario: creating the second file
fails, everything else succeeds. -/
def envC6 : FsOracle :=
  { mkdirRes := fun _ => none
    createRes := fun p => if p = "out/app/table/b.sql" then some "disk full" else none
    writeHeaderRes := fun _ => none, writeDefRes := fun _ => none }

/-- A database state whose every psql invocation returns empty output. -/
def psqlEmpty : Psql.Run := fun _ => .ok ""

/-- The earlier of two same-name same-type function objects. -/
def objF1 : Object :=
  { schema := "app", name := "f", type := ObjectType.function
    definition := "D1", depends := [] }

/-- The later of two same-name same-type function objects. -/
def objF2 : Object :=
  { schema := "app", name := "f", type := ObjectType.function
    definition := "D2", depends := [] }

/-- A map-iteration order that covers every object type. -/
def ordAll : Schema → List ObjectType :=
  fun _ => [ObjectType.table, ObjectType.view,
    ObjectType.materialized_view, ObjectType.function]

theorem FS.set_eval (fs : FS) (q v p : String) :
    (fs.set q v) p = if p = q then some v else fs p := rfl

theorem FS.set_set (fs : FS) (q a b : String) : (fs.set q a).set q b = fs.set q b := by
  funext p
  by_cases hp : p = q <;> simp [FS.set, hp]

theorem strHead_code (t : ObjectType) (X : List Char) :
    (t.str.data ++ X).head? = some t.code := by
  cases t <;> rfl

theorem code_inj {t t' : ObjectType} (h : t.code = t'.code) : t = t' := by
  cases t <;> cases t' <;> first | rfl | exact absurd h (by decide)

/-- Two objects of one schema are exported to the same path only if they
agree on type and name. -/
theorem pathOf_inj {d : String} {o o' : Object} (h : pathOf d o = pathOf d o') :
    o.type = o'.type ∧ o.name = o'.name := by
  have hd := congrArg String.data h
  simp only [pathOf, String.data_append, List.append_assoc] at hd
  have hd2 := List.append_cancel_left hd
  have hd3 := List.append_cancel_left hd2
  have hcode : some o.type.code = some o'.type.code := by
    rw [← strHead_code o.type ("/".data ++ (o.name.data ++ ".sql".data)),
      ← strHead_code o'.type ("/".data ++ (o'.name.data ++ ".sql".data)), hd3]
  have htype : o.type = o'.type := by
    injection hcode with hc
    exact code_inj hc
  rw [htype] at hd3
  have hd4 := List.append_cancel_left hd3
  have hd5 := List.append_cancel_left hd4
  have hd6 := List.append_cancel_right hd5
  exact ⟨htype, String.ext hd6⟩

theorem getLast?_mem_of_eq {α : Type} {l : List α} {a : α}
    (h : l.getLast? = some a) : a ∈ l := by
  obtain ⟨hne, heq⟩ := List.mem_getLast?_eq_getLast h
  exact heq ▸ List.getLast_mem hne

/-- A successful `exportObject` writes the rendered content at the object
path and reports no error. -/
theorem exportObject_allOk (fs : FS) (typeDir : String) (o : Object) :
    exportObject allOk fs typeDir o =
      (fs.set (typeDir ++ "/" ++ o.name ++ ".sql") (renderOf o), none) := by
  show (((fs.set _ "").set _ (headerOf o)).set _ (renderOf o), none) = _
  rw [FS.set_set, FS.set_set]

/-- Under the all-success oracle, exporting a bucket leaves, at each path,
the rendering of the last bucket object written there. -/
theorem exportObjects_allOk (typeDir : String) :
    ∀ (l : List Object) (fs : FS),
    exportObjects allOk fs typeDir l =
      (fun p =>
        match (l.filter (fun o =>
            decide (typeDir ++ "/" ++ o.name ++ ".sql" = p))).getLast? with
        | some o => some (renderOf o)
        | none => fs p, none) := by
  intro l
  induction l with
  | nil => intro fs; rfl
  | cons o rest ih =>
    intro fs
    have hstep : exportObjects allOk fs typeDir (o :: rest) =
        exportObjects allOk (fs.set (typeDir ++ "/" ++ o.name ++ ".sql") (renderOf o))
          typeDir rest := by
      show (match exportObject allOk fs typeDir o with
        | (fs1, some e) => (fs1, some ("error exporting object " ++ o.name ++ ": " ++ e))
        | (fs1, none) => exportObjects allOk fs1 typeDir rest) = _
      rw [exportObject_allOk]
    rw [hstep, ih]
    refine congrArg (fun g => (g, none)) ?_
    funext p
    by_cases hq : typeDir ++ "/" ++ o.name ++ ".sql" = p
    · simp only [List.filter_cons, decide_eq_true hq, eq_self_iff_true, if_true]
      rcases hfr : (rest.filter (fun o =>
          decide (typeDir ++ "/" ++ o.name ++ ".sql" = p))).getLast? with _ | o'
      · rw [← List.singleton_append, List.getLast?_append, hfr]
        simp [FS.set, hq, Option.or]
      · rw [← List.singleton_append, List.getLast?_append, hfr]
        rfl
    · simp only [List.filter_cons, decide_eq_false hq, Bool.false_eq_true, if_false]
      rcases hfr : (rest.filter (fun o =>
          decide (typeDir ++ "/" ++ o.name ++ ".sql" = p))).getLast? with _ | o'
      · rw [hfr, FS.set_eval, if_neg (fun h => hq h.symm)]
      · rw [hfr]

/-- Under the all-success oracle, running the per-type loop over any key
sequence leaves, at each path, the rendering of the last object of `objs`
whose type is in the sequence and whose export path is that path. -/
theorem exportTypes_allOk (schemaDir : String) (objs : List Object) :
    ∀ (order : List ObjectType) (fs : FS),
    exportTypes allOk fs schemaDir objs order =
      (fun p =>
        match (objs.filter (fun o =>
            decide (o.type ∈ order) && decide (pathOf schemaDir o = p))).getLast? with
        | some o => some (renderOf o)
        | none => fs p, none) := by
  intro order
  induction order with
  | nil =>
    intro fs
    refine congrArg (fun g => (g, none)) ?_
    funext p
    have hnil : objs.filter (fun o =>
        decide (o.type ∈ ([] : List ObjectType)) && decide (pathOf schemaDir o = p)) = [] := by
      apply List.filter_eq_nil_iff.mpr
      intro a _
      simp
    rw [hnil]
    rfl
  | cons t rest ih =>
    intro fs
    have hG : (fun p =>
        match ((objs.filter (fun o => decide (o.type = t))).filter (fun o =>
            decide (schemaDir ++ "/" ++ t.str ++ "/" ++ o.name ++ ".sql" = p))).getLast? with
        | some o => some (renderOf o)
        | none => fs p)
        = (fun p =>
        match (objs.filter (fun o =>
            decide (o.type = t) && decide (pathOf schemaDir o = p))).getLast? with
        | some o => some (renderOf o)
        | none => fs p) := by
      funext p
      rw [List.filter_filter]
      have hcond : objs.filter (fun a =>
          decide (schemaDir ++ "/" ++ t.str ++ "/" ++ a.name ++ ".sql" = p)
            && decide (a.type = t))
          = objs.filter (fun a =>
          decide (a.type = t) && decide (pathOf schemaDir a = p)) := by
        apply List.filter_congr
        intro a _
        by_cases ht : a.type = t
        · have hp : pathOf schemaDir a = schemaDir ++ "/" ++ t.str ++ "/" ++ a.name ++ ".sql" := by
            rw [pathOf, ht]
          rw [hp]
          exact Bool.and_comm _ _
        · rw [decide_eq_false ht, Bool.and_false, Bool.false_and]
      rw [hcond]
    have hstep : exportTypes allOk fs schemaDir objs (t :: rest) =
        exportTypes allOk
          (fun p =>
            match ((objs.filter (fun o => decide (o.type = t))).filter (fun o =>
                decide (schemaDir ++ "/" ++ t.str ++ "/" ++ o.name ++ ".sql" = p))).getLast? with
            | some o => some (renderOf o)
            | none => fs p)
          schemaDir objs rest := by
      show (match exportObjects allOk fs (schemaDir ++ "/" ++ t.str)
          (objs.filter (fun o => decide (o.type = t))) with
        | (fs1, some e) => (fs1, some e)
        | (fs1, none) => exportTypes allOk fs1 schemaDir objs rest) = _
      rw [exportObjects_allOk]
    rw [hstep, hG, ih]
    refine congrArg (fun g => (g, none)) ?_
    funext p
    beta_reduce
    rcases hA : (objs.filter (fun o =>
        decide (o.type ∈ rest) && decide (pathOf schemaDir o = p))).getLast? with _ | a
    · have hAnil := List.getLast?_eq_none_iff.mp hA
      rcases hB : (objs.filter (fun o =>
          decide (o.type = t) && decide (pathOf schemaDir o = p))).getLast? with _ | b
      · have hBnil := List.getLast?_eq_none_iff.mp hB
        have hCnil : objs.filter (fun o =>
            decide (o.type ∈ t :: rest) && decide (pathOf schemaDir o = p)) = [] := by
          apply List.filter_eq_nil_iff.mpr
          intro o ho hcondo
          rw [Bool.and_eq_true, decide_eq_true_eq, decide_eq_true_eq] at hcondo
          obtain ⟨hmem, hpath⟩ := hcondo
          rcases List.mem_cons.mp hmem with h1 | h2
          · exact (List.filter_eq_nil_iff.mp hBnil o ho)
              (by rw [Bool.and_eq_true]; exact ⟨decide_eq_true h1, decide_eq_true hpath⟩)
          · exact (List.filter_eq_nil_iff.mp hAnil o ho)
              (by rw [Bool.and_eq_true]; exact ⟨decide_eq_true h2, decide_eq_true hpath⟩)
        rw [hA, hB, hCnil]
        rfl
      · have hb := getLast?_mem_of_eq hB
        rw [List.mem_filter] at hb
        obtain ⟨hbo, hbcond⟩ := hb
        rw [Bool.and_eq_true, decide_eq_true_eq, decide_eq_true_eq] at hbcond
        obtain ⟨hbt, hbp⟩ := hbcond
        have hCB : objs.filter (fun o =>
            decide (o.type ∈ t :: rest) && decide (pathOf schemaDir o = p))
            = objs.filter (fun o =>
            decide (o.type = t) && decide (pathOf schemaDir o = p)) := by
          apply List.filter_congr
          intro o _
          by_cases hp : pathOf schemaDir o = p
          · have htype : o.type = b.type := (pathOf_inj (hp.trans hbp.symm)).1
            have h1 : o.type ∈ t :: rest := by
              rw [htype, hbt]; exact List.mem_cons_self _ _
            rw [decide_eq_true hp, decide_eq_true h1, decide_eq_true (htype.trans hbt)]
          · rw [decide_eq_false hp, Bool.and_false, Bool.and_false]
        rw [hA, hCB, hB]
    · have ha := getLast?_mem_of_eq hA
      rw [List.mem_filter] at ha
      obtain ⟨hao, hacond⟩ := ha
      rw [Bool.and_eq_true, decide_eq_true_eq, decide_eq_true_eq] at hacond
      obtain ⟨hat, hap⟩ := hacond
      have hCA : objs.filter (fun o =>
          decide (o.type ∈ t :: rest) && decide (pathOf schemaDir o = p))
          = objs.filter (fun o =>
          decide (o.type ∈ rest) && decide (pathOf schemaDir o = p)) := by
        apply List.filter_congr
        intro o _
        by_cases hp : pathOf schemaDir o = p
        · have htype : o.type = a.type := (pathOf_inj (hp.trans hap.symm)).1
          have h1 : o.type ∈ t :: rest := by
            rw [htype]; exact List.mem_cons_of_mem _ hat
          have h2 : o.type ∈ rest := by rw [htype]; exact hat
          rw [decide_eq_true hp, decide_eq_true h1, decide_eq_true h2]
        · rw [decide_eq_false hp, Bool.and_false, Bool.and_false]
      rw [hA, hCA, hA]

/-- Under the all-success oracle, `Export` leaves at each path the rendering
of the last model object written there, independently of the per-schema
iteration orders (which must cover every object type present). -/
theorem Export_allOk (baseDir : String) :
    ∀ (schemas : List Schema) (ord : Schema → List ObjectType) (fs : FS),
    (∀ s ∈ schemas, ∀ o ∈ s.objects, o.type ∈ ord s) →
    Export allOk ord baseDir fs schemas =
      (fun p =>
        match ((exportPairs baseDir schemas).filter
            (fun pr => decide (pr.1 = p))).getLast? with
        | some pr => some pr.2
        | none => fs p, none) := by
  intro schemas
  induction schemas with
  | nil =>
    intro ord fs _
    rfl
  | cons s rest ih =>
    intro ord fs hcov
    have hT := exportTypes_allOk (baseDir ++ "/" ++ s.name) s.objects (ord s) fs
    have hstep : Export allOk ord baseDir fs (s :: rest) =
        Export allOk ord baseDir
          (fun p => match (s.objects.filter (fun o =>
              decide (o.type ∈ ord s)
                && decide (pathOf (baseDir ++ "/" ++ s.name) o = p))).getLast? with
            | some o => some (renderOf o)
            | none => fs p) rest := by
      show (match exportTypes allOk fs (baseDir ++ "/" ++ s.name) s.objects (ord s) with
        | (fs1, some e) => (fs1, some ("error exporting schema " ++ s.name ++ ": " ++ e))
        | (fs1, none) => Export allOk ord baseDir fs1 rest) = _
      rw [hT]
    rw [hstep, ih ord _ (fun s' hs' => hcov s' (List.mem_cons_of_mem _ hs'))]
    refine congrArg (fun g => (g, none)) ?_
    funext p
    beta_reduce
    have hcovs : s.objects.filter (fun o =>
        decide (o.type ∈ ord s) && decide (pathOf (baseDir ++ "/" ++ s.name) o = p))
        = s.objects.filter (fun o =>
          decide (pathOf (baseDir ++ "/" ++ s.name) o = p)) := by
      apply List.filter_congr
      intro o ho
      rw [decide_eq_true (hcov s (List.mem_cons_self s rest) o ho), Bool.true_and]
    rw [hcovs]
    have hpairs : exportPairs baseDir (s :: rest)
        = (s.objects.map (fun o => (pathOf (baseDir ++ "/" ++ s.name) o, renderOf o)))
          ++ exportPairs baseDir rest := by
      simp only [exportPairs, List.flatMap_cons]
    rw [hpairs, List.filter_append, List.getLast?_append, List.filter_map]
    have hcomp : List.filter ((fun pr : String × String => decide (pr.1 = p))
          ∘ (fun o => (pathOf (baseDir ++ "/" ++ s.name) o, renderOf o))) s.objects
        = s.objects.filter (fun o =>
          decide (pathOf (baseDir ++ "/" ++ s.name) o = p)) :=
      List.filter_congr (fun o _ => rfl)
    rw [hcomp, List.getLast?_map]
    rcases hR : ((exportPairs baseDir rest).filter
        (fun pr => decide (pr.1 = p))).getLast? with _ | pr
    · rw [hR]
      rcases hS : (s.objects.filter (fun o =>
          decide (pathOf (baseDir ++ "/" ++ s.name) o = p))).getLast? with _ | o
      · rfl
      · rfl
    · rw [hR]
      rfl

/-- `exportObject` touches no path other than the object path, whatever the
oracle answers. -/
theorem exportObject_frame (env : FsOracle) (fs : FS) (typeDir : String) (o : Object)
    (p : String) (hp : p ≠ typeDir ++ "/" ++ o.name ++ ".sql") :
    (exportObject env fs typeDir o).1 p = fs p := by
  simp only [exportObject]
  split
  · rfl
  · split
    · simp [FS.set, hp]
    · split
      · simp [FS.set, hp]
      · simp [FS.set, hp]

/-- The bucket loop touches no path other than its objects' paths. -/
theorem exportObjects_frame (env : FsOracle) (typeDir : String) (p : String) :
    ∀ (l : List Object), (∀ o ∈ l, p ≠ typeDir ++ "/" ++ o.name ++ ".sql") →
    ∀ fs : FS, (exportObjects env fs typeDir l).1 p = fs p := by
  intro l
  induction l with
  | nil => intro _ fs; rfl
  | cons o rest ih =>
    intro h fs
    have hobj := exportObject_frame env fs typeDir o p (h o (List.mem_cons_self o rest))
    show (match exportObject env fs typeDir o with
      | (fs1, some e) => (fs1, some ("error exporting object " ++ o.name ++ ": " ++ e))
      | (fs1, none) => exportObjects env fs1 typeDir rest).1 p = fs p
    rcases hE : exportObject env fs typeDir o with ⟨fs1, _ | e⟩
    · rw [hE] at hobj
      rw [ih (fun o' ho' => h o' (List.mem_cons_of_mem _ ho')) fs1]
      exact hobj
    · rw [hE] at hobj
      exact hobj

/-- The per-type loop touches no path other than the object paths of the
schema, whatever the oracle answers and whatever the key order. -/
theorem exportTypes_frame (env : FsOracle) (schemaDir : String) (objs : List Object)
    (p : String) (h : ∀ o ∈ objs, p ≠ pathOf schemaDir o) :
    ∀ (order : List ObjectType) (fs : FS),
    (exportTypes env fs schemaDir objs order).1 p = fs p := by
  intro order
  induction order with
  | nil => intro fs; rfl
  | cons t rest ih =>
    intro fs
    show (match env.mkdirRes (schemaDir ++ "/" ++ t.str) with
      | some e => (fs, some ("error creating type directory: " ++ e))
      | none =>
        match exportObjects env fs (schemaDir ++ "/" ++ t.str)
            (objs.filter (fun o => decide (o.type = t))) with
        | (fs1, some e) => (fs1, some e)
        | (fs1, none) => exportTypes env fs1 schemaDir objs rest).1 p = fs p
    have hbucket : ∀ o ∈ objs.filter (fun o => decide (o.type = t)),
        p ≠ schemaDir ++ "/" ++ t.str ++ "/" ++ o.name ++ ".sql" := by
      intro o ho
      rw [List.mem_filter, decide_eq_true_eq] at ho
      have := h o ho.1
      rw [pathOf, ho.2] at this
      exact this
    rcases hm : env.mkdirRes (schemaDir ++ "/" ++ t.str) with _ | e
    · have hobjs := exportObjects_frame env (schemaDir ++ "/" ++ t.str) p
        (objs.filter (fun o => decide (o.type = t))) hbucket fs
      rcases hE : exportObjects env fs (schemaDir ++ "/" ++ t.str)
          (objs.filter (fun o => decide (o.type = t))) with ⟨fs1, _ | e⟩
      · rw [hE] at hobjs
        rw [ih fs1]
        exact hobjs
      · rw [hE] at hobjs
        exact hobjs
    · rfl

/-- `Export` never writes, modifies or deletes anything at a path outside
the derived path set, whatever the oracle answers (so also on failing
runs). -/
theorem Export_frame (env : FsOracle) (ord : Schema → List ObjectType)
    (baseDir : String) (p : String) :
    ∀ (schemas : List Schema), p ∉ derivedPaths baseDir schemas →
    ∀ fs : FS, (Export env ord baseDir fs schemas).1 p = fs p := by
  intro schemas
  induction schemas with
  | nil => intro _ fs; rfl
  | cons s rest ih =>
    intro hnot fs
    have hs : ∀ o ∈ s.objects, p ≠ pathOf (baseDir ++ "/" ++ s.name) o := by
      intro o ho heq
      apply hnot
      rw [derivedPaths, exportPairs]
      apply List.mem_map.mpr
      refine ⟨(pathOf (baseDir ++ "/" ++ s.name) o, renderOf o), ?_, heq.symm⟩
      apply List.mem_flatMap.mpr
      exact ⟨s, List.mem_cons_self s rest, List.mem_map.mpr ⟨o, ho, rfl⟩⟩
    have hrest : p ∉ derivedPaths baseDir rest := by
      intro hmem
      apply hnot
      rw [derivedPaths, exportPairs] at hmem ⊢
      rw [List.flatMap_cons, List.map_append]
      exact List.mem_append.mpr (Or.inr hmem)
    show (match exportSchema env (ord s) fs baseDir s with
      | (fs1, some e) => (fs1, some ("error exporting schema " ++ s.name ++ ": " ++ e))
      | (fs1, none) => Export env ord baseDir fs1 rest).1 p = fs p
    have hsch : (exportSchema env (ord s) fs baseDir s).1 p = fs p := by
      rw [exportSchema]
      rcases hm : env.mkdirRes (baseDir ++ "/" ++ s.name) with _ | e
      · exact exportTypes_frame env (baseDir ++ "/" ++ s.name) s.objects p hs (ord s) fs
      · rfl
    rcases hE : exportSchema env (ord s) fs baseDir s with ⟨fs1, _ | e⟩
    · rw [hE] at hsch
      rw [ih hrest fs1]
      exact hsch
    · rw [hE] at hsch
      exact hsch

namespace Psql

/-- The table loop succeeds exactly on the retained rows: names follow the
parsed listing, every object is a table of the requested schema. -/
theorem extractTablesLoop_spec (psql : Run) (s : String) :
    ∀ (lines : List String) (objs : List Object),
    extractTablesLoop psql s lines = .ok objs →
    objs.map (fun o => o.name) = (lines.filterMap parseSimpleRow).map (fun r => r.2)
      ∧ ∀ o ∈ objs, o.type = ObjectType.table ∧ o.schema = s := by
  intro lines
  induction lines with
  | nil =>
    intro objs h
    simp only [extractTablesLoop] at h
    obtain rfl : ([] : List Object) = objs := by
      simpa using h
    simp
  | cons line rest ih =>
    intro objs h
    simp only [extractTablesLoop] at h
    by_cases h1 : line = ""
    · rw [if_pos h1] at h
      obtain ⟨hmap, hall⟩ := ih objs h
      refine ⟨?_, hall⟩
      rw [hmap]
      have hrow : parseSimpleRow line = none := by
        simp only [parseSimpleRow, if_pos h1]
      rw [List.filterMap_cons, hrow]
    · rw [if_neg h1] at h
      by_cases h2 : (goSplit line '|').length < 6
      · rw [if_pos h2] at h
        obtain ⟨hmap, hall⟩ := ih objs h
        refine ⟨?_, hall⟩
        rw [hmap]
        have hrow : parseSimpleRow line = none := by
          simp only [parseSimpleRow, if_neg h1, if_pos h2]
        rw [List.filterMap_cons, hrow]
      · rw [if_neg h2] at h
        by_cases h3 : goTrim ((goSplit line '|').getD 0 "") = "pg_catalog"
            ∨ goTrim ((goSplit line '|').getD 0 "") = "information_schema"
        · rw [if_pos h3] at h
          obtain ⟨hmap, hall⟩ := ih objs h
          refine ⟨?_, hall⟩
          rw [hmap]
          have hrow : parseSimpleRow line = none := by
            simp only [parseSimpleRow, if_neg h1, if_neg h2, if_pos h3]
          rw [List.filterMap_cons, hrow]
        · rw [if_neg h3] at h
          rcases hdef : psql (describeCmd s (goTrim ((goSplit line '|').getD 1 ""))) with e | d
          · rw [hdef] at h
            simp at h
          · rw [hdef] at h
            rcases hrest : extractTablesLoop psql s rest with e' | objs'
            · rw [hrest] at h
              simp [Except.map] at h
            · rw [hrest] at h
              simp only [Except.map, Except.ok.injEq] at h
              obtain ⟨hmap', hall'⟩ := ih objs' hrest
              subst h
              constructor
              · have hrow : parseSimpleRow line
                    = some (goTrim ((goSplit line '|').getD 0 ""),
                        goTrim ((goSplit line '|').getD 1 "")) := by
                  simp only [parseSimpleRow, if_neg h1, if_neg h2, if_neg h3]
                rw [List.filterMap_cons, hrow, List.map_cons, List.map_cons, hmap']
              · intro o ho
                rcases List.mem_cons.mp ho with h4 | h4
                · subst h4
                  exact ⟨rfl, rfl⟩
                · exact hall' o h4

end Psql

namespace Psql

/-- The view loop succeeds exactly on the retained rows. -/
theorem extractViewsLoop_spec (psql : Run) (s : String) :
    ∀ (lines : List String) (objs : List Object),
    extractViewsLoop psql s lines = .ok objs →
    objs.map (fun o => o.name) = (lines.filterMap parseSimpleRow).map (fun r => r.2)
      ∧ ∀ o ∈ objs, o.type = ObjectType.view ∧ o.schema = s := by
  intro lines
  induction lines with
  | nil =>
    intro objs h
    simp only [extractViewsLoop] at h
    obtain rfl : ([] : List Object) = objs := by
      simpa using h
    simp
  | cons line rest ih =>
    intro objs h
    simp only [extractViewsLoop] at h
    by_cases h1 : line = ""
    · rw [if_pos h1] at h
      obtain ⟨hmap, hall⟩ := ih objs h
      refine ⟨?_, hall⟩
      rw [hmap]
      have hrow : parseSimpleRow line = none := by
        simp only [parseSimpleRow, if_pos h1]
      rw [List.filterMap_cons, hrow]
    · rw [if_neg h1] at h
      by_cases h2 : (goSplit line '|').length < 6
      · rw [if_pos h2] at h
        obtain ⟨hmap, hall⟩ := ih objs h
        refine ⟨?_, hall⟩
        rw [hmap]
        have hrow : parseSimpleRow line = none := by
          simp only [parseSimpleRow, if_neg h1, if_pos h2]
        rw [List.filterMap_cons, hrow]
      · rw [if_neg h2] at h
        by_cases h3 : goTrim ((goSplit line '|').getD 0 "") = "pg_catalog"
            ∨ goTrim ((goSplit line '|').getD 0 "") = "information_schema"
        · rw [if_pos h3] at h
          obtain ⟨hmap, hall⟩ := ih objs h
          refine ⟨?_, hall⟩
          rw [hmap]
          have hrow : parseSimpleRow line = none := by
            simp only [parseSimpleRow, if_neg h1, if_neg h2, if_pos h3]
          rw [List.filterMap_cons, hrow]
        · rw [if_neg h3] at h
          rcases hdef : psql (describeCmd s (goTrim ((goSplit line '|').getD 1 ""))) with e | d
          · rw [hdef] at h
            simp at h
          · rw [hdef] at h
            rcases hrest : extractViewsLoop psql s rest with e' | objs'
            · rw [hrest] at h
              simp [Except.map] at h
            · rw [hrest] at h
              simp only [Except.map, Except.ok.injEq] at h
              obtain ⟨hmap', hall'⟩ := ih objs' hrest
              subst h
              constructor
              · have hrow : parseSimpleRow line
                    = some (goTrim ((goSplit line '|').getD 0 ""),
                        goTrim ((goSplit line '|').getD 1 "")) := by
                  simp only [parseSimpleRow, if_neg h1, if_neg h2, if_neg h3]
                rw [List.filterMap_cons, hrow, List.map_cons, List.map_cons, hmap']
              · intro o ho
                rcases List.mem_cons.mp ho with h4 | h4
                · subst h4
                  exact ⟨rfl, rfl⟩
                · exact hall' o h4

/-- The materialized-view loop succeeds exactly on the retained rows. -/
theorem extractMatViewsLoop_spec (psql : Run) (s : String) :
    ∀ (lines : List String) (objs : List Object),
    extractMatViewsLoop psql s lines = .ok objs →
    objs.map (fun o => o.name) = (lines.filterMap parseSimpleRow).map (fun r => r.2)
      ∧ ∀ o ∈ objs, o.type = ObjectType.materialized_view ∧ o.schema = s := by
  intro lines
  induction lines with
  | nil =>
    intro objs h
    simp only [extractMatViewsLoop] at h
    obtain rfl : ([] : List Object) = objs := by
      simpa using h
    simp
  | cons line rest ih =>
    intro objs h
    simp only [extractMatViewsLoop] at h
    by_cases h1 : line = ""
    · rw [if_pos h1] at h
      obtain ⟨hmap, hall⟩ := ih objs h
      refine ⟨?_, hall⟩
      rw [hmap]
      have hrow : parseSimpleRow line = none := by
        simp only [parseSimpleRow, if_pos h1]
      rw [List.filterMap_cons, hrow]
    · rw [if_neg h1] at h
      by_cases h2 : (goSplit line '|').length < 6
      · rw [if_pos h2] at h
        obtain ⟨hmap, hall⟩ := ih objs h
        refine ⟨?_, hall⟩
        rw [hmap]
        have hrow : parseSimpleRow line = none := by
          simp only [parseSimpleRow, if_neg h1, if_pos h2]
        rw [List.filterMap_cons, hrow]
      · rw [if_neg h2] at h
        by_cases h3 : goTrim ((goSplit line '|').getD 0 "") = "pg_catalog"
            ∨ goTrim ((goSplit line '|').getD 0 "") = "information_schema"
        · rw [if_pos h3] at h
          obtain ⟨hmap, hall⟩ := ih objs h
          refine ⟨?_, hall⟩
          rw [hmap]
          have hrow : parseSimpleRow line = none := by
            simp only [parseSimpleRow, if_neg h1, if_neg h2, if_pos h3]
          rw [List.filterMap_cons, hrow]
        · rw [if_neg h3] at h
          rcases hdef : psql (describeCmd s (goTrim ((goSplit line '|').getD 1 ""))) with e | d
          · rw [hdef] at h
            simp at h
          · rw [hdef] at h
            rcases hrest : extractMatViewsLoop psql s rest with e' | objs'
            · rw [hrest] at h
              simp [Except.map] at h
            · rw [hrest] at h
              simp only [Except.map, Except.ok.injEq] at h
              obtain ⟨hmap', hall'⟩ := ih objs' hrest
              subst h
              constructor
              · have hrow : parseSimpleRow line
                    = some (goTrim ((goSplit line '|').getD 0 ""),
                        goTrim ((goSplit line '|').getD 1 "")) := by
                  simp only [parseSimpleRow, if_neg h1, if_neg h2, if_neg h3]
                rw [List.filterMap_cons, hrow, List.map_cons, List.map_cons, hmap']
              · intro o ho
                rcases List.mem_cons.mp ho with h4 | h4
                · subst h4
                  exact ⟨rfl, rfl⟩
                · exact hall' o h4

/-- The regular-function loop succeeds exactly on the retained rows (name
and argument types taken from columns 1 and 3, the kind from column 4). -/
theorem extractRegularFunctionsLoop_spec (psql : Run) (s : String) :
    ∀ (lines : List String) (objs : List Object),
    extractRegularFunctionsLoop psql s lines = .ok objs →
    objs.map (fun o => o.name) = (lines.filterMap parseFnRow).map (fun r => r.2.1)
      ∧ ∀ o ∈ objs, o.type = ObjectType.function ∧ o.schema = s := by
  intro lines
  induction lines with
  | nil =>
    intro objs h
    simp only [extractRegularFunctionsLoop] at h
    obtain rfl : ([] : List Object) = objs := by
      simpa using h
    simp
  | cons line rest ih =>
    intro objs h
    simp only [extractRegularFunctionsLoop] at h
    by_cases h1 : line = ""
    · rw [if_pos h1] at h
      obtain ⟨hmap, hall⟩ := ih objs h
      refine ⟨?_, hall⟩
      rw [hmap]
      have hrow : parseFnRow line = none := by
        simp only [parseFnRow, if_pos h1]
      rw [List.filterMap_cons, hrow]
    · rw [if_neg h1] at h
      by_cases h2 : (goSplit line '|').length < 12
      · rw [if_pos h2] at h
        obtain ⟨hmap, hall⟩ := ih objs h
        refine ⟨?_, hall⟩
        rw [hmap]
        have hrow : parseFnRow line = none := by
          simp only [parseFnRow, if_neg h1, if_pos h2]
        rw [List.filterMap_cons, hrow]
      · rw [if_neg h2] at h
        by_cases h3 : goTrim ((goSplit line '|').getD 0 "") = "pg_catalog"
            ∨ goTrim ((goSplit line '|').getD 0 "") = "information_schema"
            ∨ goTrim ((goSplit line '|').getD 4 "") ≠ "func"
        · rw [if_pos h3] at h
          obtain ⟨hmap, hall⟩ := ih objs h
          refine ⟨?_, hall⟩
          rw [hmap]
          have hrow : parseFnRow line = none := by
            simp only [parseFnRow, if_neg h1, if_neg h2, if_pos h3]
          rw [List.filterMap_cons, hrow]
        · rw [if_neg h3] at h
          rcases hdef : psql (sfCmd s (goTrim ((goSplit line '|').getD 1 ""))
              (goTrim ((goSplit line '|').getD 3 ""))) with e | d
          · rw [hdef] at h
            simp at h
          · rw [hdef] at h
            rcases hrest : extractRegularFunctionsLoop psql s rest with e' | objs'
            · rw [hrest] at h
              simp [Except.map] at h
            · rw [hrest] at h
              simp only [Except.map, Except.ok.injEq] at h
              obtain ⟨hmap', hall'⟩ := ih objs' hrest
              subst h
              constructor
              · have hrow : parseFnRow line
                    = some (goTrim ((goSplit line '|').getD 0 ""),
                        goTrim ((goSplit line '|').getD 1 ""),
                        goTrim ((goSplit line '|').getD 3 "")) := by
                  simp only [parseFnRow, if_neg h1, if_neg h2, if_neg h3]
                rw [List.filterMap_cons, hrow, List.map_cons, List.map_cons, hmap']
              · intro o ho
                rcases List.mem_cons.mp ho with h4 | h4
                · subst h4
                  exact ⟨rfl, rfl⟩
                · exact hall' o h4

/-- The aggregate loop succeeds exactly on the retained rows (name and
argument types taken from columns 1 and 2). -/
theorem extractAggregateFunctionsLoop_spec (psql : Run) (s : String) :
    ∀ (lines : List String) (objs : List Object),
    extractAggregateFunctionsLoop psql s lines = .ok objs →
    objs.map (fun o => o.name) = (lines.filterMap parseAggRow).map (fun r => r.2.1)
      ∧ ∀ o ∈ objs, o.type = ObjectType.function ∧ o.schema = s := by
  intro lines
  induction lines with
  | nil =>
    intro objs h
    simp only [extractAggregateFunctionsLoop] at h
    obtain rfl : ([] : List Object) = objs := by
      simpa using h
    simp
  | cons line rest ih =>
    intro objs h
    simp only [extractAggregateFunctionsLoop] at h
    by_cases h1 : line = ""
    · rw [if_pos h1] at h
      obtain ⟨hmap, hall⟩ := ih objs h
      refine ⟨?_, hall⟩
      rw [hmap]
      have hrow : parseAggRow line = none := by
        simp only [parseAggRow, if_pos h1]
      rw [List.filterMap_cons, hrow]
    · rw [if_neg h1] at h
      by_cases h2 : (goSplit line '|').length < 4
      · rw [if_pos h2] at h
        obtain ⟨hmap, hall⟩ := ih objs h
        refine ⟨?_, hall⟩
        rw [hmap]
        have hrow : parseAggRow line = none := by
          simp only [parseAggRow, if_neg h1, if_pos h2]
        rw [List.filterMap_cons, hrow]
      · rw [if_neg h2] at h
        by_cases h3 : goTrim ((goSplit line '|').getD 0 "") = "pg_catalog"
            ∨ goTrim ((goSplit line '|').getD 0 "") = "information_schema"
        · rw [if_pos h3] at h
          obtain ⟨hmap, hall⟩ := ih objs h
          refine ⟨?_, hall⟩
          rw [hmap]
          have hrow : parseAggRow line = none := by
            simp only [parseAggRow, if_neg h1, if_neg h2, if_pos h3]
          rw [List.filterMap_cons, hrow]
        · rw [if_neg h3] at h
          rcases hdef : psql (aggDefCmd s (goTrim ((goSplit line '|').getD 1 ""))
              (goTrim ((goSplit line '|').getD 2 ""))) with e | d
          · rw [hdef] at h
            simp at h
          · rw [hdef] at h
            rcases hrest : extractAggregateFunctionsLoop psql s rest with e' | objs'
            · rw [hrest] at h
              simp [Except.map] at h
            · rw [hrest] at h
              simp only [Except.map, Except.ok.injEq] at h
              obtain ⟨hmap', hall'⟩ := ih objs' hrest
              subst h
              constructor
              · have hrow : parseAggRow line
                    = some (goTrim ((goSplit line '|').getD 0 ""),
                        goTrim ((goSplit line '|').getD 1 ""),
                        goTrim ((goSplit line '|').getD 2 "")) := by
                  simp only [parseAggRow, if_neg h1, if_neg h2, if_neg h3]
                rw [List.filterMap_cons, hrow, List.map_cons, List.map_cons, hmap']
              · intro o ho
                rcases List.mem_cons.mp ho with h4 | h4
                · subst h4
                  exact ⟨rfl, rfl⟩
                · exact hall' o h4

end Psql

theorem parseSimpleRow_ns {line : String} {r : String × String}
    (h : parseSimpleRow line = some r) :
    r.1 ≠ "pg_catalog" ∧ r.1 ≠ "information_schema" := by
  simp only [parseSimpleRow] at h
  split_ifs at h with h1 h2 h3
  have he := Option.some.inj h
  subst he
  push_neg at h3
  exact ⟨h3.1, h3.2⟩

theorem parseFnRow_ns {line : String} {r : String × String × String}
    (h : parseFnRow line = some r) :
    r.1 ≠ "pg_catalog" ∧ r.1 ≠ "information_schema" := by
  simp only [parseFnRow] at h
  split_ifs at h with h1 h2 h3
  have he := Option.some.inj h
  subst he
  push_neg at h3
  exact ⟨h3.1, h3.2.1⟩

theorem parseAggRow_ns {line : String} {r : String × String × String}
    (h : parseAggRow line = some r) :
    r.1 ≠ "pg_catalog" ∧ r.1 ≠ "information_schema" := by
  simp only [parseAggRow] at h
  split_ifs at h with h1 h2 h3
  have he := Option.some.inj h
  subst he
  push_neg at h3
  exact ⟨h3.1, h3.2⟩

namespace Psql

theorem extractTables_spec (psql : Run) (s : String) (objs : List Object)
    (h : extractTables psql s = .ok objs) :
    ∃ out, psql (tablesListCmd s) = .ok out
      ∧ objs.map (fun o => o.name) = (parsedSimpleRows out).map (fun r => r.2)
      ∧ ∀ o ∈ objs, o.type = ObjectType.table ∧ o.schema = s := by
  simp only [extractTables] at h
  rcases hout : psql (tablesListCmd s) with e | out
  · rw [hout] at h
    exact Except.noConfusion h
  · rw [hout] at h
    exact ⟨out, rfl, extractTablesLoop_spec psql s _ objs h⟩

theorem extractViews_spec (psql : Run) (s : String) (objs : List Object)
    (h : extractViews psql s = .ok objs) :
    ∃ out, psql (viewsListCmd s) = .ok out
      ∧ objs.map (fun o => o.name) = (parsedSimpleRows out).map (fun r => r.2)
      ∧ ∀ o ∈ objs, o.type = ObjectType.view ∧ o.schema = s := by
  simp only [extractViews] at h
  rcases hout : psql (viewsListCmd s) with e | out
  · rw [hout] at h
    exact Except.noConfusion h
  · rw [hout] at h
    exact ⟨out, rfl, extractViewsLoop_spec psql s _ objs h⟩

theorem extractMaterializedViews_spec (psql : Run) (s : String) (objs : List Object)
    (h : extractMaterializedViews psql s = .ok objs) :
    ∃ out, psql (matViewsListCmd s) = .ok out
      ∧ objs.map (fun o => o.name) = (parsedSimpleRows out).map (fun r => r.2)
      ∧ ∀ o ∈ objs, o.type = ObjectType.materialized_view ∧ o.schema = s := by
  simp only [extractMaterializedViews] at h
  rcases hout : psql (matViewsListCmd s) with e | out
  · rw [hout] at h
    exact Except.noConfusion h
  · rw [hout] at h
    exact ⟨out, rfl, extractMatViewsLoop_spec psql s _ objs h⟩

theorem extractRegularFunctions_spec (psql : Run) (s : String) (objs : List Object)
    (h : extractRegularFunctions psql s = .ok objs) :
    ∃ out, psql (functionsListCmd s) = .ok out
      ∧ objs.map (fun o => o.name) = (parsedFnRows out).map (fun r => r.2.1)
      ∧ ∀ o ∈ objs, o.type = ObjectType.function ∧ o.schema = s := by
  simp only [extractRegularFunctions] at h
  rcases hout : psql (functionsListCmd s) with e | out
  · rw [hout] at h
    exact Except.noConfusion h
  · rw [hout] at h
    exact ⟨out, rfl, extractRegularFunctionsLoop_spec psql s _ objs h⟩

theorem extractAggregateFunctions_spec (psql : Run) (s : String) (objs : List Object)
    (h : extractAggregateFunctions psql s = .ok objs) :
    ∃ out, psql (aggListCmd s) = .ok out
      ∧ objs.map (fun o => o.name) = (parsedAggRows out).map (fun r => r.2.1)
      ∧ ∀ o ∈ objs, o.type = ObjectType.function ∧ o.schema = s := by
  simp only [extractAggregateFunctions] at h
  rcases hout : psql (aggListCmd s) with e | out
  · rw [hout] at h
    exact Except.noConfusion h
  · rw [hout] at h
    exact ⟨out, rfl, extractAggregateFunctionsLoop_spec psql s _ objs h⟩

theorem extractFunctions_spec (psql : Run) (s : String) (objs : List Object)
    (h : extractFunctions psql s = .ok objs) :
    ∃ fns aggs, extractRegularFunctions psql s = .ok fns
      ∧ extractAggregateFunctions psql s = .ok aggs ∧ objs = fns ++ aggs := by
  simp only [extractFunctions] at h
  rcases hr : extractRegularFunctions psql s with e | fns
  · rw [hr] at h
    exact Except.noConfusion h
  · rw [hr] at h
    rcases ha : extractAggregateFunctions psql s with e | aggs
    · rw [ha] at h
      exact Except.noConfusion h
    · rw [ha] at h
      exact ⟨fns, aggs, rfl, rfl, (Except.ok.inj h).symm⟩

theorem ExtractSchemasLoop_ok (psql : Run) :
    ∀ (names : List String) (acc schemas : List Schema),
    ExtractSchemasLoop psql names acc = (schemas, none) →
    ∀ sch ∈ schemas, sch ∈ acc
      ∨ ∃ t v m fns aggs,
          extractTables psql sch.name = .ok t
          ∧ extractViews psql sch.name = .ok v
          ∧ extractMaterializedViews psql sch.name = .ok m
          ∧ extractRegularFunctions psql sch.name = .ok fns
          ∧ extractAggregateFunctions psql sch.name = .ok aggs
          ∧ sch.objects = t ++ v ++ m ++ (fns ++ aggs) := by
  intro names
  induction names with
  | nil =>
    intro acc schemas h sch hmem
    simp only [ExtractSchemasLoop] at h
    have hacc : acc = schemas := congrArg Prod.fst h
    subst hacc
    exact Or.inl hmem
  | cons n rest ih =>
    intro acc schemas h sch hmem
    simp only [ExtractSchemasLoop] at h
    rcases ht : extractTables psql n with e | t
    · rw [ht] at h
      exact absurd (congrArg Prod.snd h) (by simp)
    · rw [ht] at h
      rcases hv : extractViews psql n with e | v
      · rw [hv] at h
        exact absurd (congrArg Prod.snd h) (by simp)
      · rw [hv] at h
        rcases hm2 : extractMaterializedViews psql n with e | m
        · rw [hm2] at h
          exact absurd (congrArg Prod.snd h) (by simp)
        · rw [hm2] at h
          rcases hf : extractFunctions psql n with e | funcs
          · rw [hf] at h
            exact absurd (congrArg Prod.snd h) (by simp)
          · rw [hf] at h
            rcases ih _ _ h sch hmem with hin | hP
            · rcases List.mem_append.mp hin with hin2 | hin2
              · exact Or.inl hin2
              · have hsch : sch = { name := n, objects := t ++ v ++ m ++ funcs } := by
                  simpa using hin2
                right
                obtain ⟨fns, aggs, hr, ha, hfa⟩ := extractFunctions_spec psql n funcs hf
                subst hsch
                exact ⟨t, v, m, fns, aggs, ht, hv, hm2, hr, ha, by rw [hfa]⟩
            · exact Or.inr hP

theorem ExtractSchemasLoop_error (psql : Run) :
    ∀ (names : List String) (acc l : List Schema) (e : String),
    ExtractSchemasLoop psql names acc = (l, some e) →
    l = [] ∧ ∃ n ∈ names,
      ∃ cat ∈ (["tables", "views", "materialized views", "functions"] : List String),
        ∃ inner, e = "error extracting " ++ cat ++ " from schema " ++ n ++ ": " ++ inner := by
  intro names
  induction names with
  | nil =>
    intro acc l e h
    simp only [ExtractSchemasLoop] at h
    exact absurd (congrArg Prod.snd h) (by simp)
  | cons n rest ih =>
    intro acc l e h
    simp only [ExtractSchemasLoop] at h
    rcases ht : extractTables psql n with e1 | t
    · rw [ht] at h
      refine ⟨(congrArg Prod.fst h).symm, n, List.mem_cons_self _ _, "tables", by simp,
        e1, ?_⟩
      exact (Option.some.inj (congrArg Prod.snd h)).symm
    · rw [ht] at h
      rcases hv : extractViews psql n with e1 | v
      · rw [hv] at h
        refine ⟨(congrArg Prod.fst h).symm, n, List.mem_cons_self _ _, "views", by simp,
          e1, ?_⟩
        exact (Option.some.inj (congrArg Prod.snd h)).symm
      · rw [hv] at h
        rcases hm2 : extractMaterializedViews psql n with e1 | m
        · rw [hm2] at h
          refine ⟨(congrArg Prod.fst h).symm, n, List.mem_cons_self _ _,
            "materialized views", by simp, e1, ?_⟩
          exact (Option.some.inj (congrArg Prod.snd h)).symm
        · rw [hm2] at h
          rcases hf : extractFunctions psql n with e1 | funcs
          · rw [hf] at h
            refine ⟨(congrArg Prod.fst h).symm, n, List.mem_cons_self _ _,
              "functions", by simp, e1, ?_⟩
            exact (Option.some.inj (congrArg Prod.snd h)).symm
          · rw [hf] at h
            obtain ⟨hl, n', hn', cat, hcat, inner, hmsg⟩ := ih _ _ _ h
            exact ⟨hl, n', List.mem_cons_of_mem _ hn', cat, hcat, inner, hmsg⟩

end Psql

namespace Psql

/-- A blank or under-width row contributes nothing to the table loop and
never aborts it. -/
theorem extractTablesLoop_skip (psql : Run) (s line : String) (rest : List String)
    (h : line = "" ∨ (goSplit line '|').length < 6) :
    extractTablesLoop psql s (line :: rest) = extractTablesLoop psql s rest := by
  rcases h with h | h
  · simp only [extractTablesLoop, if_pos h]
  · by_cases h1 : line = ""
    · simp only [extractTablesLoop, if_pos h1]
    · simp only [extractTablesLoop, if_neg h1, if_pos h]

/-- A full-width non-system row is parsed from columns 0 and 1, and its
definition is fetched with the `\d+` command for that name. -/
theorem extractTablesLoop_good (psql : Run) (s line : String) (rest : List String)
    (hlen : ¬ (goSplit line '|').length < 6)
    (hns : ¬ (goTrim ((goSplit line '|').getD 0 "") = "pg_catalog"
      ∨ goTrim ((goSplit line '|').getD 0 "") = "information_schema")) :
    extractTablesLoop psql s (line :: rest) =
      match psql (describeCmd s (goTrim ((goSplit line '|').getD 1 ""))) with
      | .error e => .error ("error getting table definition for "
          ++ goTrim ((goSplit line '|').getD 1 "") ++ ": " ++ e)
      | .ok d => (extractTablesLoop psql s rest).map
          (fun objs =>
            { schema := s, name := goTrim ((goSplit line '|').getD 1 ""),
              type := ObjectType.table, definition := d, depends := [] } :: objs) := by
  have hne : line ≠ "" := by
    intro he
    apply hlen
    rw [he]
    decide
  simp only [extractTablesLoop, if_neg hne, if_neg hlen, if_neg hns]

/-- A blank or under-width row contributes nothing to the regular-function
loop and never aborts it. -/
theorem extractRegularFunctionsLoop_skip (psql : Run) (s line : String)
    (rest : List String)
    (h : line = "" ∨ (goSplit line '|').length < 12) :
    extractRegularFunctionsLoop psql s (line :: rest)
      = extractRegularFunctionsLoop psql s rest := by
  rcases h with h | h
  · simp only [extractRegularFunctionsLoop, if_pos h]
  · by_cases h1 : line = ""
    · simp only [extractRegularFunctionsLoop, if_pos h1]
    · simp only [extractRegularFunctionsLoop, if_neg h1, if_pos h]

/-- A row whose kind column is not `func` (such as an aggregate) is
skipped by the regular-function loop. -/
theorem extractRegularFunctionsLoop_skip_kind (psql : Run) (s line : String)
    (rest : List String)
    (h : goTrim ((goSplit line '|').getD 0 "") = "pg_catalog"
      ∨ goTrim ((goSplit line '|').getD 0 "") = "information_schema"
      ∨ goTrim ((goSplit line '|').getD 4 "") ≠ "func") :
    extractRegularFunctionsLoop psql s (line :: rest)
      = extractRegularFunctionsLoop psql s rest := by
  by_cases h1 : line = ""
  · simp only [extractRegularFunctionsLoop, if_pos h1]
  · by_cases h2 : (goSplit line '|').length < 12
    · simp only [extractRegularFunctionsLoop, if_neg h1, if_pos h2]
    · simp only [extractRegularFunctionsLoop, if_neg h1, if_neg h2, if_pos h]

/-- A full-width retained `\df+` row is parsed from columns 0, 1, 3 and 4,
and the definition is fetched by `\sf` with the signature threaded in. -/
theorem extractRegularFunctionsLoop_good (psql : Run) (s line : String)
    (rest : List String)
    (hlen : ¬ (goSplit line '|').length < 12)
    (hns : ¬ (goTrim ((goSplit line '|').getD 0 "") = "pg_catalog"
      ∨ goTrim ((goSplit line '|').getD 0 "") = "information_schema"
      ∨ goTrim ((goSplit line '|').getD 4 "") ≠ "func")) :
    extractRegularFunctionsLoop psql s (line :: rest) =
      match psql (sfCmd s (goTrim ((goSplit line '|').getD 1 ""))
          (goTrim ((goSplit line '|').getD 3 ""))) with
      | .error e => .error ("error getting function definition for "
          ++ goTrim ((goSplit line '|').getD 1 "")
          ++ "(" ++ goTrim ((goSplit line '|').getD 3 "") ++ "): " ++ e)
      | .ok d => (extractRegularFunctionsLoop psql s rest).map
          (fun objs =>
            { schema := s, name := goTrim ((goSplit line '|').getD 1 ""),
              type := ObjectType.function, definition := d, depends := [] } :: objs) := by
  have hne : line ≠ "" := by
    intro he
    apply hlen
    rw [he]
    decide
  simp only [extractRegularFunctionsLoop, if_neg hne, if_neg hlen, if_neg hns]

/-- A blank or under-width row contributes nothing to the aggregate loop
and never aborts it. -/
theorem extractAggregateFunctionsLoop_skip (psql : Run) (s line : String)
    (rest : List String)
    (h : line = "" ∨ (goSplit line '|').length < 4) :
    extractAggregateFunctionsLoop psql s (line :: rest)
      = extractAggregateFunctionsLoop psql s rest := by
  rcases h with h | h
  · simp only [extractAggregateFunctionsLoop, if_pos h]
  · by_cases h1 : line = ""
    · simp only [extractAggregateFunctionsLoop, if_pos h1]
    · simp only [extractAggregateFunctionsLoop, if_neg h1, if_pos h]

/-- A full-width non-system `\da+` row is parsed from columns 0, 1 and 2,
and the definition is fetched by the catalog-introspection query. -/
theorem extractAggregateFunctionsLoop_good (psql : Run) (s line : String)
    (rest : List String)
    (hlen : ¬ (goSplit line '|').length < 4)
    (hns : ¬ (goTrim ((goSplit line '|').getD 0 "") = "pg_catalog"
      ∨ goTrim ((goSplit line '|').getD 0 "") = "information_schema")) :
    extractAggregateFunctionsLoop psql s (line :: rest) =
      match psql (aggDefCmd s (goTrim ((goSplit line '|').getD 1 ""))
          (goTrim ((goSplit line '|').getD 2 ""))) with
      | .error e => .error ("error getting aggregate function definition for "
          ++ goTrim ((goSplit line '|').getD 1 "")
          ++ "(" ++ goTrim ((goSplit line '|').getD 2 "") ++ "): " ++ e)
      | .ok d => (extractAggregateFunctionsLoop psql s rest).map
          (fun objs =>
            { schema := s, name := goTrim ((goSplit line '|').getD 1 ""),
              type := ObjectType.function, definition := d, depends := [] } :: objs) := by
  have hne : line ≠ "" := by
    intro he
    apply hlen
    rw [he]
    decide
  simp only [extractAggregateFunctionsLoop, if_neg hne, if_neg hlen, if_neg hns]

end Psql


/-- Claim C3 (counterexample): the exporter appends a statement terminator
unconditionally, so a definition that already ends in one is exported with
two terminators, and an all-whitespace definition is exported as a bare
terminator without error — contradicting "exactly one statement terminator
regardless of whether the definition already ends with one" and the
non-emptiness invariant. -/
theorem exportObject_appends_second_terminator :
    (exportObject allOk (fun _ => none) "out/app/table"
        { schema := "app", name := "users", type := ObjectType.table,
          definition := "CREATE TABLE users ();", depends := [] }).1
        "out/app/table/users.sql"
      = some ("-- Object: app.users\n-- Type: table\n\nCREATE TABLE users ()" ++ ";;\n")
    ∧ [';', ';', '\n'] <:+
        ("-- Object: app.users\n-- Type: table\n\nCREATE TABLE users ();;\n").data
    ∧ (exportObject allOk (fun _ => none) "out/app/table"
        { schema := "app", name := "e", type := ObjectType.table,
          definition := " ", depends := [] }).2 = none
    ∧ (exportObject allOk (fun _ => none) "out/app/table"
        { schema := "app", name := "e", type := ObjectType.table,
          definition := " ", depends := [] }).1 "out/app/table/e.sql"
      = some "-- Object: app.e\n-- Type: table\n\n;\n" := by
  refine ⟨?_, by decide, rfl, ?_⟩
  · rfl
  · rfl

/-- Claim C3 (amended): a successfully exported file consists of the line
`-- Object: <schema>.<name>`, the line `-- Type: <type>`, a blank line and
the trimmed definition with one terminator and newline appended
unconditionally (so a definition already ending in a terminator yields two,
and emptiness is not checked). -/
theorem exportObject_file_content (o : Object) (fs : FS) (typeDir : String) :
    exportObject allOk fs typeDir o =
      (fs.set (typeDir ++ "/" ++ o.name ++ ".sql")
        ("-- Object: " ++ o.schema ++ "." ++ o.name ++ "\n-- Type: " ++ o.type.str
          ++ "\n\n" ++ (goTrim o.definition ++ ";\n")), none) :=
  exportObject_allOk fs typeDir o

/-- Claim C5: `Export` is deterministic and idempotent — on an unchanged
model a second run reproduces the same file tree with no error, and the
final tree does not depend on the iteration order over the per-type
buckets (any two orders covering the types present give identical
results). -/
theorem export_idempotent_and_order_independent (baseDir : String)
    (schemas : List Schema) (ord1 ord2 : Schema → List ObjectType) (fs : FS)
    (h1 : ∀ s ∈ schemas, ∀ o ∈ s.objects, o.type ∈ ord1 s)
    (h2 : ∀ s ∈ schemas, ∀ o ∈ s.objects, o.type ∈ ord2 s) :
    Export allOk ord1 baseDir fs schemas = Export allOk ord2 baseDir fs schemas
      ∧ Export allOk ord1 baseDir (Export allOk ord1 baseDir fs schemas).1 schemas
          = ((Export allOk ord1 baseDir fs schemas).1, none) := by
  have e1 := Export_allOk baseDir schemas ord1 fs h1
  have e2 := Export_allOk baseDir schemas ord2 fs h2
  refine ⟨e1.trans e2.symm, ?_⟩
  have e3 := Export_allOk baseDir schemas ord1
    (Export allOk ord1 baseDir fs schemas).1 h1
  rw [e3]
  refine congrArg (fun g => (g, none)) ?_
  funext p
  simp only [e1]
  rcases hF : ((exportPairs baseDir schemas).filter
      (fun pr => decide (pr.1 = p))).getLast? with _ | pr
  · rw [hF]
  · rw [hF]

/-- Claim C6: `Export` never deletes or modifies any file whose path is
outside the derived path set, for every oracle (so also on failed runs);
and on a partial failure the files already written stay on disk with their
full content, while the error wraps the schema and object context (shown
on a concrete two-object run whose second file creation fails). -/
theorem export_frame_and_no_rollback :
    (∀ (env : FsOracle) (ord : Schema → List ObjectType) (baseDir : String)
        (schemas : List Schema) (fs : FS) (p : String),
      p ∉ derivedPaths baseDir schemas →
      (Export env ord baseDir fs schemas).1 p = fs p)
    ∧ (Export envC6 ordAll "out" (fun _ => none) [schemaC6]).2
        = some "error exporting schema app: error exporting object b: error creating file: disk full"
    ∧ (Export envC6 ordAll "out" (fun _ => none) [schemaC6]).1 "out/app/table/a.sql"
        = some "-- Object: app.a\n-- Type: table\n\nA;\n" := by
  refine ⟨?_, ?_, ?_⟩
  · intro env ord baseDir schemas fs p hp
    exact Export_frame env ord baseDir p schemas hp fs
  · rfl
  · rfl

/-- Claim C10: two objects of one schema sharing name and type are exported
to one identical path; the later object's file replaces the earlier one,
so the final tree holds exactly one file for the pair, with the later
object's header and definition. -/
theorem export_same_name_same_type_single_file (baseDir sname : String)
    (l1 l2 l3 : List Object) (o1 o2 : Object) (ord : Schema → List ObjectType)
    (fs : FS)
    (hname : o1.name = o2.name) (htype : o1.type = o2.type)
    (hcov : ∀ o ∈ l1 ++ [o1] ++ l2 ++ [o2] ++ l3,
      o.type ∈ ord { name := sname, objects := l1 ++ [o1] ++ l2 ++ [o2] ++ l3 })
    (hlater : ∀ o ∈ l3, o.name ≠ o2.name ∨ o.type ≠ o2.type) :
    pathOf (baseDir ++ "/" ++ sname) o1 = pathOf (baseDir ++ "/" ++ sname) o2
    ∧ (Export allOk ord baseDir fs
        [{ name := sname, objects := l1 ++ [o1] ++ l2 ++ [o2] ++ l3 }]).1
        (pathOf (baseDir ++ "/" ++ sname) o2) = some (renderOf o2)
    ∧ (Export allOk ord baseDir fs
        [{ name := sname, objects := l1 ++ [o1] ++ l2 ++ [o2] ++ l3 }]).2 = none := by
  have hpath : pathOf (baseDir ++ "/" ++ sname) o1 = pathOf (baseDir ++ "/" ++ sname) o2 := by
    rw [pathOf, pathOf, hname, htype]
  have hE := Export_allOk baseDir [{ name := sname, objects := l1 ++ [o1] ++ l2 ++ [o2] ++ l3 }]
    ord fs (by
      intro s hs o ho
      have hseq : s = { name := sname, objects := l1 ++ [o1] ++ l2 ++ [o2] ++ l3 } := by
        simpa using hs
      subst hseq
      exact hcov o ho)
  refine ⟨hpath, ?_, ?_⟩
  · rw [hE]
    show (match ((exportPairs baseDir
        [{ name := sname, objects := l1 ++ [o1] ++ l2 ++ [o2] ++ l3 }]).filter
          (fun pr => decide (pr.1 = pathOf (baseDir ++ "/" ++ sname) o2))).getLast? with
      | some pr => some pr.2
      | none => fs (pathOf (baseDir ++ "/" ++ sname) o2)) = some (renderOf o2)
    have hpairs : exportPairs baseDir
        [{ name := sname, objects := l1 ++ [o1] ++ l2 ++ [o2] ++ l3 }]
        = (l1 ++ [o1] ++ l2 ++ [o2] ++ l3).map
            (fun o => (pathOf (baseDir ++ "/" ++ sname) o, renderOf o)) := by
      simp [exportPairs]
    rw [hpairs, List.filter_map]
    have hcomp : List.filter ((fun pr : String × String =>
          decide (pr.1 = pathOf (baseDir ++ "/" ++ sname) o2))
          ∘ (fun o => (pathOf (baseDir ++ "/" ++ sname) o, renderOf o)))
          (l1 ++ [o1] ++ l2 ++ [o2] ++ l3)
        = (l1 ++ [o1] ++ l2 ++ [o2] ++ l3).filter (fun o =>
          decide (pathOf (baseDir ++ "/" ++ sname) o = pathOf (baseDir ++ "/" ++ sname) o2)) :=
      List.filter_congr (fun o _ => rfl)
    rw [hcomp]
    rw [List.filter_append, List.filter_append]
    have hl3 : l3.filter (fun o =>
        decide (pathOf (baseDir ++ "/" ++ sname) o = pathOf (baseDir ++ "/" ++ sname) o2))
        = [] := by
      apply List.filter_eq_nil_iff.mpr
      intro o ho hcond
      rw [decide_eq_true_eq] at hcond
      obtain ⟨hty, hna⟩ := pathOf_inj hcond
      rcases hlater o ho with hh | hh
      · exact hh hna
      · exact hh hty
    have ho2 : [o2].filter (fun o =>
        decide (pathOf (baseDir ++ "/" ++ sname) o = pathOf (baseDir ++ "/" ++ sname) o2))
        = [o2] := by
      simp
    rw [hl3, ho2, List.append_nil, List.getLast?_map, List.getLast?_append]
    rfl
  · rw [hE]

/-- Witness for claim C5 at a concrete model and two concrete orders. -/
theorem export_idempotent_and_order_independent_witness :
    Export allOk ordAll "out" (fun _ => none) [schemaC6]
        = Export allOk (fun _ => [ObjectType.function, ObjectType.materialized_view,
            ObjectType.view, ObjectType.table]) "out" (fun _ => none) [schemaC6]
      ∧ Export allOk ordAll "out"
          (Export allOk ordAll "out" (fun _ => none) [schemaC6]).1 [schemaC6]
        = ((Export allOk ordAll "out" (fun _ => none) [schemaC6]).1, none) :=
  export_idempotent_and_order_independent "out" [schemaC6] ordAll
    (fun _ => [ObjectType.function, ObjectType.materialized_view,
      ObjectType.view, ObjectType.table]) (fun _ => none)
    (by decide) (by decide)

/-- Witness for claim C6: a pre-existing unrelated file survives an export
untouched. -/
theorem export_frame_and_no_rollback_witness :
    (Export allOk ordAll "out"
        (fun q => if q = "keep.txt" then some "KEEP" else none) [schemaC6]).1 "keep.txt"
      = some "KEEP" :=
  export_frame_and_no_rollback.1 allOk ordAll "out" [schemaC6]
    (fun q => if q = "keep.txt" then some "KEEP" else none) "keep.txt" (by decide)

/-- Witness for claim C10 at two concrete overloads of one function name. -/
theorem export_same_name_same_type_single_file_witness :
    pathOf ("out" ++ "/" ++ "app") objF1 = pathOf ("out" ++ "/" ++ "app") objF2
    ∧ (Export allOk ordAll "out" (fun _ => none)
        [{ name := "app", objects := [] ++ [objF1] ++ [] ++ [objF2] ++ [] }]).1
        (pathOf ("out" ++ "/" ++ "app") objF2) = some (renderOf objF2)
    ∧ (Export allOk ordAll "out" (fun _ => none)
        [{ name := "app", objects := [] ++ [objF1] ++ [] ++ [objF2] ++ [] }]).2 = none :=
  export_same_name_same_type_single_file "out" "app" [] [] [] objF1 objF2 ordAll
    (fun _ => none) rfl rfl (by decide) (by decide)

/-- Claim C4: when anything fails, `ExtractSchemas` returns the empty (Go:
nil) schema list next to an error whose text names the failing category and
schema and wraps the cause; on a definition failure the full message also
names the object (and, for functions, its argument-type signature) and ends
in the underlying cause. -/
theorem extractSchemas_failure_aborts_with_context (psql : Psql.Run) :
    (∀ (names : List String) (l : List Schema) (e : String),
      Psql.ExtractSchemas psql names = (l, some e) →
      l = [] ∧ ∃ n ∈ names,
        ∃ cat ∈ (["tables", "views", "materialized views", "functions"] : List String),
          ∃ inner, e = "error extracting " ++ cat ++ " from schema " ++ n ++ ": " ++ inner)
    ∧ (∀ cause : String,
        psql (Psql.tablesListCmd "app") = .ok "app|users|owner|x|y|z" →
        psql (Psql.describeCmd "app" "users") = .error cause →
        Psql.ExtractSchemas psql ["app"]
          = ([], some ("error extracting tables from schema app: error getting table definition for users: "
              ++ cause)))
    ∧ (∀ cause : String,
        psql (Psql.tablesListCmd "app") = .ok "" →
        psql (Psql.viewsListCmd "app") = .ok "" →
        psql (Psql.matViewsListCmd "app") = .ok "" →
        psql (Psql.functionsListCmd "app") = .ok "app|f|integer|integer|func|v|s|u|o|l|x|y" →
        psql (Psql.sfCmd "app" "f" "integer") = .error cause →
        Psql.ExtractSchemas psql ["app"]
          = ([], some ("error extracting functions from schema app: error getting function definition for f(integer): "
              ++ cause))) := by
  refine ⟨?_, ?_, ?_⟩
  · intro names l e h
    exact Psql.ExtractSchemasLoop_error psql names [] l e h
  · intro cause h1 h2
    have hT : Psql.extractTables psql "app"
        = .error ("error getting table definition for users: " ++ cause) := by
      simp only [Psql.extractTables]
      rw [h1]
      show Psql.extractTablesLoop psql "app" ["app|users|owner|x|y|z"] = _
      rw [Psql.extractTablesLoop_good psql "app" _ _ (by decide) (by decide)]
      rw [show goTrim ((goSplit "app|users|owner|x|y|z" '|').getD 1 "") = "users" from rfl]
      rw [h2]
      rfl
    show Psql.ExtractSchemasLoop psql ["app"] [] = _
    simp only [Psql.ExtractSchemasLoop]
    rw [hT]
    exact congrArg (fun z => (([] : List Schema), some z))
      (by rw [← String.append_assoc]; rfl)
  · intro cause h1 h2 h3 h4 h5
    have hT : Psql.extractTables psql "app" = .ok [] := by
      simp only [Psql.extractTables]
      rw [h1]
      rfl
    have hV : Psql.extractViews psql "app" = .ok [] := by
      simp only [Psql.extractViews]
      rw [h2]
      rfl
    have hM : Psql.extractMaterializedViews psql "app" = .ok [] := by
      simp only [Psql.extractMaterializedViews]
      rw [h3]
      rfl
    have hF : Psql.extractFunctions psql "app"
        = .error ("error getting function definition for f(integer): " ++ cause) := by
      have hR : Psql.extractRegularFunctions psql "app"
          = .error ("error getting function definition for f(integer): " ++ cause) := by
        simp only [Psql.extractRegularFunctions]
        rw [h4]
        show Psql.extractRegularFunctionsLoop psql "app"
          ["app|f|integer|integer|func|v|s|u|o|l|x|y"] = _
        rw [Psql.extractRegularFunctionsLoop_good psql "app" _ _ (by decide) (by decide)]
        rw [show goTrim ((goSplit "app|f|integer|integer|func|v|s|u|o|l|x|y" '|').getD 1 "")
            = "f" from rfl]
        rw [show goTrim ((goSplit "app|f|integer|integer|func|v|s|u|o|l|x|y" '|').getD 3 "")
            = "integer" from rfl]
        rw [h5]
        rfl
      simp only [Psql.extractFunctions]
      rw [hR]
    show Psql.ExtractSchemasLoop psql ["app"] [] = _
    simp only [Psql.ExtractSchemasLoop]
    rw [hT, hV, hM, hF]
    exact congrArg (fun z => (([] : List Schema), some z))
      (by rw [← String.append_assoc]; rfl)

/-- Witness for claim C4 on a concrete failing database state. -/
theorem extractSchemas_failure_aborts_with_context_witness :
    Psql.ExtractSchemas psqlC4 ["app"]
      = ([], some ("error extracting tables from schema app: error getting table definition for users: "
          ++ "permission denied")) :=
  (extractSchemas_failure_aborts_with_context psqlC4).2.1 "permission denied" rfl rfl

/-- Claim C7: when the function listing holds two rows with one name and
two argument-type signatures, extraction threads each row's signature into
its own `\sf` call and yields two distinct objects whose definitions are
the ones returned for their respective signatures. -/
theorem overloaded_functions_get_signature_specific_definitions
    (psql : Psql.Run) (d1 d2 : String)
    (hlist : psql (Psql.functionsListCmd "app")
      = .ok "app|f|integer|integer|func|v|s|u|o|l|x|y\napp|f|text|text|func|v|s|u|o|l|x|y")
    (h1 : psql (Psql.sfCmd "app" "f" "integer") = .ok d1)
    (h2 : psql (Psql.sfCmd "app" "f" "text") = .ok d2) :
    Psql.extractRegularFunctions psql "app"
      = .ok [{ schema := "app", name := "f", type := ObjectType.function,
               definition := d1, depends := [] },
             { schema := "app", name := "f", type := ObjectType.function,
               definition := d2, depends := [] }] := by
  simp only [Psql.extractRegularFunctions]
  rw [hlist]
  show Psql.extractRegularFunctionsLoop psql "app"
    ["app|f|integer|integer|func|v|s|u|o|l|x|y", "app|f|text|text|func|v|s|u|o|l|x|y"] = _
  rw [Psql.extractRegularFunctionsLoop_good psql "app" _ _ (by decide) (by decide)]
  rw [show goTrim ((goSplit "app|f|integer|integer|func|v|s|u|o|l|x|y" '|').getD 1 "")
      = "f" from rfl]
  rw [show goTrim ((goSplit "app|f|integer|integer|func|v|s|u|o|l|x|y" '|').getD 3 "")
      = "integer" from rfl]
  rw [h1]
  rw [Psql.extractRegularFunctionsLoop_good psql "app" _ _ (by decide) (by decide)]
  rw [show goTrim ((goSplit "app|f|text|text|func|v|s|u|o|l|x|y" '|').getD 1 "")
      = "f" from rfl]
  rw [show goTrim ((goSplit "app|f|text|text|func|v|s|u|o|l|x|y" '|').getD 3 "")
      = "text" from rfl]
  rw [h2]
  rfl

/-- Witness for claim C7 on a concrete two-overload database state. -/
theorem overloaded_functions_get_signature_specific_definitions_witness :
    Psql.extractRegularFunctions psqlC7 "app"
      = .ok [{ schema := "app", name := "f", type := ObjectType.function,
               definition := "DEF_INT", depends := [] },
             { schema := "app", name := "f", type := ObjectType.function,
               definition := "DEF_TEXT", depends := [] }] :=
  overloaded_functions_get_signature_specific_definitions psqlC7 "DEF_INT" "DEF_TEXT"
    rfl rfl rfl

/-- Claim C9: an aggregate in a non-system schema yields exactly one
function object, obtained through the catalog-introspection query built
from the `\da+` row; the regular-function path drops it because its kind
column is not `func`, so the combined function extraction holds it exactly
once. -/
theorem aggregate_function_single_object_via_catalog_query
    (psql : Psql.Run) (d : String)
    (hT : psql (Psql.tablesListCmd "app") = .ok "")
    (hV : psql (Psql.viewsListCmd "app") = .ok "")
    (hM : psql (Psql.matViewsListCmd "app") = .ok "")
    (hdf : psql (Psql.functionsListCmd "app")
      = .ok "app|my_agg|numeric|numeric|agg|v|s|u|o|l|x|y")
    (hda : psql (Psql.aggListCmd "app") = .ok "app|my_agg|numeric|average")
    (hdef : psql (Psql.aggDefCmd "app" "my_agg" "numeric") = .ok d) :
    Psql.extractRegularFunctions psql "app" = .ok []
    ∧ Psql.extractAggregateFunctions psql "app"
        = .ok [{ schema := "app", name := "my_agg", type := ObjectType.function,
                 definition := d, depends := [] }]
    ∧ Psql.extractFunctions psql "app"
        = .ok [{ schema := "app", name := "my_agg", type := ObjectType.function,
                 definition := d, depends := [] }]
    ∧ Psql.ExtractSchemas psql ["app"]
        = ([{ name := "app",
              objects := [
                { schema := "app", name := "my_agg",
                  type := ObjectType.function, definition := d, depends := [] }] }],
           none) := by
  have hreg : Psql.extractRegularFunctions psql "app" = .ok [] := by
    simp only [Psql.extractRegularFunctions]
    rw [hdf]
    show Psql.extractRegularFunctionsLoop psql "app"
      ["app|my_agg|numeric|numeric|agg|v|s|u|o|l|x|y"] = _
    rw [Psql.extractRegularFunctionsLoop_skip_kind psql "app" _ _ (by decide)]
    rfl
  have hagg : Psql.extractAggregateFunctions psql "app"
      = .ok [{ schema := "app", name := "my_agg", type := ObjectType.function,
               definition := d, depends := [] }] := by
    simp only [Psql.extractAggregateFunctions]
    rw [hda]
    show Psql.extractAggregateFunctionsLoop psql "app" ["app|my_agg|numeric|average"] = _
    rw [Psql.extractAggregateFunctionsLoop_good psql "app" _ _ (by decide) (by decide)]
    rw [show goTrim ((goSplit "app|my_agg|numeric|average" '|').getD 1 "")
        = "my_agg" from rfl]
    rw [show goTrim ((goSplit "app|my_agg|numeric|average" '|').getD 2 "")
        = "numeric" from rfl]
    rw [hdef]
    rfl
  have hfun : Psql.extractFunctions psql "app"
      = .ok [{ schema := "app", name := "my_agg", type := ObjectType.function,
               definition := d, depends := [] }] := by
    simp only [Psql.extractFunctions]
    rw [hreg, hagg]
    rfl
  have hTok : Psql.extractTables psql "app" = .ok [] := by
    simp only [Psql.extractTables]
    rw [hT]
    rfl
  have hVok : Psql.extractViews psql "app" = .ok [] := by
    simp only [Psql.extractViews]
    rw [hV]
    rfl
  have hMok : Psql.extractMaterializedViews psql "app" = .ok [] := by
    simp only [Psql.extractMaterializedViews]
    rw [hM]
    rfl
  refine ⟨hreg, hagg, hfun, ?_⟩
  show Psql.ExtractSchemasLoop psql ["app"] [] = _
  simp only [Psql.ExtractSchemasLoop]
  rw [hTok, hVok, hMok, hfun]
  rfl

set_option maxRecDepth 4000 in
/-- Witness for claim C9 on a concrete aggregate database state. -/
theorem aggregate_function_single_object_via_catalog_query_witness :
    Psql.extractRegularFunctions psqlC9 "app" = .ok []
    ∧ Psql.extractAggregateFunctions psqlC9 "app"
        = .ok [{ schema := "app", name := "my_agg", type := ObjectType.function,
                 definition := "AGGDEF", depends := [] }]
    ∧ Psql.extractFunctions psqlC9 "app"
        = .ok [{ schema := "app", name := "my_agg", type := ObjectType.function,
                 definition := "AGGDEF", depends := [] }]
    ∧ Psql.ExtractSchemas psqlC9 ["app"]
        = ([{ name := "app",
              objects := [
                { schema := "app", name := "my_agg",
                  type := ObjectType.function, definition := "AGGDEF", depends := [] }] }],
           none) :=
  aggregate_function_single_object_via_catalog_query psqlC9 "AGGDEF"
    rfl rfl rfl rfl rfl rfl

/-- Claim C8: in every listing loop a blank line, or a row with fewer
fields than the variant's expected count (6 for `\dt+`-style listings, 12
for `\df+`, 4 for `\da+`), is silently skipped — it contributes no object
and never aborts — while a full-width retained row is parsed from the
fixed column positions of its variant (namespace 0, name 1; for functions
also argument types 3 and kind 4; for aggregates argument types 2). -/
theorem listing_parser_row_tolerance (psql : Psql.Run) (s : String) :
    (∀ line rest, line = "" ∨ (goSplit line '|').length < 6 →
      Psql.extractTablesLoop psql s (line :: rest) = Psql.extractTablesLoop psql s rest)
    ∧ (∀ line rest, line = "" ∨ (goSplit line '|').length < 12 →
      Psql.extractRegularFunctionsLoop psql s (line :: rest)
        = Psql.extractRegularFunctionsLoop psql s rest)
    ∧ (∀ line rest, line = "" ∨ (goSplit line '|').length < 4 →
      Psql.extractAggregateFunctionsLoop psql s (line :: rest)
        = Psql.extractAggregateFunctionsLoop psql s rest)
    ∧ (∀ line rest d, ¬ (goSplit line '|').length < 6 →
        ¬ (goTrim ((goSplit line '|').getD 0 "") = "pg_catalog"
          ∨ goTrim ((goSplit line '|').getD 0 "") = "information_schema") →
        psql (Psql.describeCmd s (goTrim ((goSplit line '|').getD 1 ""))) = .ok d →
        Psql.extractTablesLoop psql s (line :: rest)
          = (Psql.extractTablesLoop psql s rest).map
              (fun objs =>
                { schema := s, name := goTrim ((goSplit line '|').getD 1 ""),
                  type := ObjectType.table, definition := d, depends := [] } :: objs))
    ∧ (∀ line rest d, ¬ (goSplit line '|').length < 12 →
        ¬ (goTrim ((goSplit line '|').getD 0 "") = "pg_catalog"
          ∨ goTrim ((goSplit line '|').getD 0 "") = "information_schema"
          ∨ goTrim ((goSplit line '|').getD 4 "") ≠ "func") →
        psql (Psql.sfCmd s (goTrim ((goSplit line '|').getD 1 ""))
          (goTrim ((goSplit line '|').getD 3 ""))) = .ok d →
        Psql.extractRegularFunctionsLoop psql s (line :: rest)
          = (Psql.extractRegularFunctionsLoop psql s rest).map
              (fun objs =>
                { schema := s, name := goTrim ((goSplit line '|').getD 1 ""),
                  type := ObjectType.function, definition := d, depends := [] } :: objs)) := by
  refine ⟨?_, ?_, ?_, ?_, ?_⟩
  · intro line rest h
    exact Psql.extractTablesLoop_skip psql s line rest h
  · intro line rest h
    exact Psql.extractRegularFunctionsLoop_skip psql s line rest h
  · intro line rest h
    exact Psql.extractAggregateFunctionsLoop_skip psql s line rest h
  · intro line rest d hlen hns hdef
    rw [Psql.extractTablesLoop_good psql s line rest hlen hns, hdef]
  · intro line rest d hlen hns hdef
    rw [Psql.extractRegularFunctionsLoop_good psql s line rest hlen hns, hdef]

/-- Witness for claim C8: an under-width row is skipped, and a full-width
row is parsed from the fixed columns, on concrete inputs. -/
theorem listing_parser_row_tolerance_witness :
    Psql.extractTablesLoop psqlEmpty "app" ["x|y"]
        = Psql.extractTablesLoop psqlEmpty "app" []
    ∧ Psql.extractTablesLoop psqlC9 "app" [""]
        = Psql.extractTablesLoop psqlC9 "app" []
    ∧ Psql.extractRegularFunctionsLoop psqlEmpty "app" ["a|b|c"]
        = Psql.extractRegularFunctionsLoop psqlEmpty "app" []
    ∧ Psql.extractTablesLoop psqlEmpty "app" ["app|users|owner|x|y|z"]
        = (Psql.extractTablesLoop psqlEmpty "app" []).map
            (fun objs =>
              { schema := "app",
                name := goTrim ((goSplit "app|users|owner|x|y|z" '|').getD 1 ""),
                type := ObjectType.table, definition := "", depends := [] } :: objs) :=
  ⟨(listing_parser_row_tolerance psqlEmpty "app").1 "x|y" [] (by decide),
   (listing_parser_row_tolerance psqlC9 "app").1 "" [] (Or.inl rfl),
   (listing_parser_row_tolerance psqlEmpty "app").2.1 "a|b|c" [] (by decide),
   (listing_parser_row_tolerance psqlEmpty "app").2.2.2.1 "app|users|owner|x|y|z" [] ""
     (by decide) (by decide) rfl⟩

theorem parsedSimpleRows_ns (out : String) :
    ∀ r ∈ parsedSimpleRows out, r.1 ≠ "pg_catalog" ∧ r.1 ≠ "information_schema" := by
  intro r hr
  obtain ⟨line, -, hline⟩ := List.mem_filterMap.mp hr
  exact parseSimpleRow_ns hline

theorem parsedFnRows_ns (out : String) :
    ∀ r ∈ parsedFnRows out, r.1 ≠ "pg_catalog" ∧ r.1 ≠ "information_schema" := by
  intro r hr
  obtain ⟨line, -, hline⟩ := List.mem_filterMap.mp hr
  exact parseFnRow_ns hline

theorem parsedAggRows_ns (out : String) :
    ∀ r ∈ parsedAggRows out, r.1 ≠ "pg_catalog" ∧ r.1 ≠ "information_schema" := by
  intro r hr
  obtain ⟨line, -, hline⟩ := List.mem_filterMap.mp hr
  exact parseAggRow_ns hline

/-- Claim C2 (amended, psql backend): in each of the five categories every
extracted object corresponds, in order, to a retained listing row, and no
retained row — hence no extracted object — has a system namespace
(`pg_catalog` or `information_schema`) in the owning-namespace column, no
matter what schema name the caller supplies (including those two names
themselves). -/
theorem psql_backend_system_namespace_filter (psql : Psql.Run) (s : String) :
    (∀ objs out, psql (Psql.tablesListCmd s) = .ok out →
      Psql.extractTables psql s = .ok objs →
      objs.map (fun o => o.name) = (parsedSimpleRows out).map (fun r => r.2)
        ∧ ∀ r ∈ parsedSimpleRows out, r.1 ≠ "pg_catalog" ∧ r.1 ≠ "information_schema")
    ∧ (∀ objs out, psql (Psql.viewsListCmd s) = .ok out →
      Psql.extractViews psql s = .ok objs →
      objs.map (fun o => o.name) = (parsedSimpleRows out).map (fun r => r.2)
        ∧ ∀ r ∈ parsedSimpleRows out, r.1 ≠ "pg_catalog" ∧ r.1 ≠ "information_schema")
    ∧ (∀ objs out, psql (Psql.matViewsListCmd s) = .ok out →
      Psql.extractMaterializedViews psql s = .ok objs →
      objs.map (fun o => o.name) = (parsedSimpleRows out).map (fun r => r.2)
        ∧ ∀ r ∈ parsedSimpleRows out, r.1 ≠ "pg_catalog" ∧ r.1 ≠ "information_schema")
    ∧ (∀ objs out, psql (Psql.functionsListCmd s) = .ok out →
      Psql.extractRegularFunctions psql s = .ok objs →
      objs.map (fun o => o.name) = (parsedFnRows out).map (fun r => r.2.1)
        ∧ ∀ r ∈ parsedFnRows out, r.1 ≠ "pg_catalog" ∧ r.1 ≠ "information_schema")
    ∧ (∀ objs out, psql (Psql.aggListCmd s) = .ok out →
      Psql.extractAggregateFunctions psql s = .ok objs →
      objs.map (fun o => o.name) = (parsedAggRows out).map (fun r => r.2.1)
        ∧ ∀ r ∈ parsedAggRows out, r.1 ≠ "pg_catalog" ∧ r.1 ≠ "information_schema") := by
  refine ⟨?_, ?_, ?_, ?_, ?_⟩
  · intro objs out hout h
    obtain ⟨out', hout', hmap, -⟩ := Psql.extractTables_spec psql s objs h
    obtain rfl : out' = out := Except.ok.inj (hout'.symm.trans hout)
    exact ⟨hmap, parsedSimpleRows_ns _⟩
  · intro objs out hout h
    obtain ⟨out', hout', hmap, -⟩ := Psql.extractViews_spec psql s objs h
    obtain rfl : out' = out := Except.ok.inj (hout'.symm.trans hout)
    exact ⟨hmap, parsedSimpleRows_ns _⟩
  · intro objs out hout h
    obtain ⟨out', hout', hmap, -⟩ := Psql.extractMaterializedViews_spec psql s objs h
    obtain rfl : out' = out := Except.ok.inj (hout'.symm.trans hout)
    exact ⟨hmap, parsedSimpleRows_ns _⟩
  · intro objs out hout h
    obtain ⟨out', hout', hmap, -⟩ := Psql.extractRegularFunctions_spec psql s objs h
    obtain rfl : out' = out := Except.ok.inj (hout'.symm.trans hout)
    exact ⟨hmap, parsedFnRows_ns _⟩
  · intro objs out hout h
    obtain ⟨out', hout', hmap, -⟩ := Psql.extractAggregateFunctions_spec psql s objs h
    obtain rfl : out' = out := Except.ok.inj (hout'.symm.trans hout)
    exact ⟨hmap, parsedAggRows_ns _⟩

/-- Witness for claim C2 (amended) with the caller asking for `pg_catalog`
itself. -/
theorem psql_backend_system_namespace_filter_witness :
    ([] : List Object).map (fun o => o.name) = (parsedSimpleRows "").map (fun r => r.2)
    ∧ ∀ r ∈ parsedSimpleRows "", r.1 ≠ "pg_catalog" ∧ r.1 ≠ "information_schema" :=
  (psql_backend_system_namespace_filter psqlEmpty "pg_catalog").1 [] "" rfl rfl

set_option maxRecDepth 4000 in
/-- Claim C2 (counterexample): the direct-query backend of the repository
applies no system-namespace filter at all — when the caller passes
`pg_catalog` and the catalog owns a table, the extraction output contains
an object owned by `pg_catalog`. -/
theorem direct_backend_emits_pg_catalog_objects :
    Direct.ExtractSchemas directC2 ["pg_catalog"]
      = ([{ name := "pg_catalog",
            objects := [
              { schema := "pg_catalog", name := "pg_class",
                type := ObjectType.table, definition := "TABLEDEF", depends := [] }] }],
         none)
    ∧ ∃ sch ∈ (Direct.ExtractSchemas directC2 ["pg_catalog"]).1,
        ∃ o ∈ sch.objects, o.schema = "pg_catalog" := by
  have h1 : Direct.ExtractSchemas directC2 ["pg_catalog"]
      = ([{ name := "pg_catalog",
            objects := [
              { schema := "pg_catalog", name := "pg_class",
                type := ObjectType.table, definition := "TABLEDEF", depends := [] }] }],
         none) := by
    rfl
  refine ⟨h1, ?_⟩
  rw [h1]
  exact ⟨_, List.mem_cons_self _ _, _, List.mem_cons_self _ _, rfl⟩

/-- Claim C1 (amended): when every listing step enumerates alphabetically,
each extracted schema's objects are partitioned by type in the fixed order
table, view, materialized view, function, alphabetically by name within
the first three partitions; the function partition is two alphabetical
runs — the regular functions followed by the aggregate functions — rather
than one. -/
theorem extractSchemas_partition_two_alphabetical_runs (psql : Psql.Run)
    (names : List String) (schemas : List Schema)
    (hok : Psql.ExtractSchemas psql names = (schemas, none))
    (hsT : ∀ s out, psql (Psql.tablesListCmd s) = .ok out →
        sortedNames ((parsedSimpleRows out).map (fun r => r.2)))
    (hsV : ∀ s out, psql (Psql.viewsListCmd s) = .ok out →
        sortedNames ((parsedSimpleRows out).map (fun r => r.2)))
    (hsM : ∀ s out, psql (Psql.matViewsListCmd s) = .ok out →
        sortedNames ((parsedSimpleRows out).map (fun r => r.2)))
    (hsF : ∀ s out, psql (Psql.functionsListCmd s) = .ok out →
        sortedNames ((parsedFnRows out).map (fun r => r.2.1)))
    (hsA : ∀ s out, psql (Psql.aggListCmd s) = .ok out →
        sortedNames ((parsedAggRows out).map (fun r => r.2.1))) :
    ∀ sch ∈ schemas, orderedAmended sch.objects := by
  intro sch hmem
  rcases Psql.ExtractSchemasLoop_ok psql names [] schemas hok sch hmem with hin | hP
  · exact absurd hin (List.not_mem_nil sch)
  · obtain ⟨t, v, m, fns, aggs, ht, hv, hm2, hf, ha, hobjs⟩ := hP
    obtain ⟨outT, houtT, hmapT, hallT⟩ := Psql.extractTables_spec psql sch.name t ht
    obtain ⟨outV, houtV, hmapV, hallV⟩ := Psql.extractViews_spec psql sch.name v hv
    obtain ⟨outM, houtM, hmapM, hallM⟩ :=
      Psql.extractMaterializedViews_spec psql sch.name m hm2
    obtain ⟨outF, houtF, hmapF, hallF⟩ :=
      Psql.extractRegularFunctions_spec psql sch.name fns hf
    obtain ⟨outA, houtA, hmapA, hallA⟩ :=
      Psql.extractAggregateFunctions_spec psql sch.name aggs ha
    refine ⟨t, v, m, fns, aggs, hobjs,
      fun o ho => (hallT o ho).1, fun o ho => (hallV o ho).1,
      fun o ho => (hallM o ho).1, fun o ho => (hallF o ho).1,
      fun o ho => (hallA o ho).1, ?_, ?_, ?_, ?_, ?_⟩
    · rw [hmapT]
      exact hsT sch.name outT houtT
    · rw [hmapV]
      exact hsV sch.name outV houtV
    · rw [hmapM]
      exact hsM sch.name outM houtM
    · rw [hmapF]
      exact hsF sch.name outF houtF
    · rw [hmapA]
      exact hsA sch.name outA houtA

/-- Witness for claim C1 (amended) on an empty database state. -/
theorem extractSchemas_partition_two_alphabetical_runs_witness :
    orderedAmended ({ name := "app", objects := ([] : List Object) } : Schema).objects := by
  refine extractSchemas_partition_two_alphabetical_runs psqlEmpty ["app"]
    [{ name := "app", objects := [] }] rfl ?_ ?_ ?_ ?_ ?_
    { name := "app", objects := [] } (List.mem_cons_self _ _)
  all_goals
    intro s out h
    injection h with h2
    rw [← h2]
    decide

set_option maxRecDepth 4000 in
/-- Claim C1 (counterexample): with schema `app` holding the regular
function `zfunc` and the aggregate `aagg` — every listing alphabetically
sorted — extraction emits `zfunc` before `aagg`, so the function partition
is not alphabetically ordered by name and the claimed ordering fails. -/
theorem extractSchemas_function_partition_not_alphabetical :
    Psql.ExtractSchemas psqlC1 ["app"]
      = ([{ name := "app", objects := [objZfunc, objAagg] }], none)
    ∧ sortedNames ((parsedSimpleRows "").map (fun r => r.2))
    ∧ sortedNames ((parsedFnRows "app|zfunc|integer|integer|func|v|s|u|o|l|x|y").map
        (fun r => r.2.1))
    ∧ sortedNames ((parsedAggRows "app|aagg|numeric|desc").map (fun r => r.2.1))
    ∧ ¬ orderedPerSpec [objZfunc, objAagg] := by
  refine ⟨by rfl, by decide, by decide, by decide, ?_⟩
  rintro ⟨L1, L2, L3, L4, heq, ht1, ht2, ht3, ht4, hs1, hs2, hs3, hs4⟩
  cases L1 with
  | cons x xs =>
    have hx := congrArg List.head? heq
    injection hx with hx2
    have hty := ht1 x (List.mem_cons_self x xs)
    rw [← hx2] at hty
    exact absurd hty (by decide)
  | nil =>
    simp only [List.nil_append] at heq
    cases L2 with
    | cons x xs =>
      have hx := congrArg List.head? heq
      injection hx with hx2
      have hty := ht2 x (List.mem_cons_self x xs)
      rw [← hx2] at hty
      exact absurd hty (by decide)
    | nil =>
      simp only [List.nil_append] at heq
      cases L3 with
      | cons x xs =>
        have hx := congrArg List.head? heq
        injection hx with hx2
        have hty := ht3 x (List.mem_cons_self x xs)
        rw [← hx2] at hty
        exact absurd hty (by decide)
      | nil =>
        simp only [List.nil_append] at heq
        rw [← heq] at hs4
        exact absurd hs4 (by decide)
